import Mathlib

/-!
Shallow embedding of the jewelry virtual try-on pipeline
(segmentation / placement / composition / validation) of the
`astra-assignment` repository, together with theorems settling the
frozen claims about its specification.

Conventions used throughout:
* JavaScript numbers are modelled as rationals (`ℚ`); every numeric
  value occurring in the verified paths is an exact decimal, so no
  value sits close to a floating-point rounding boundary.
* `Math.round` is modelled by `jsRound q = ⌊q + 1/2⌋`, which is exactly
  JavaScript's round-half-up behaviour (also for negative arguments).
* Byte buffers handed to the pixel scanners are modelled as a length
  together with a total read function (out-of-range reads are guarded
  by the same length tests the source performs).
* `await`-ed external effects (sharp image operations, AI services)
  are modelled by environments recording each step's outcome
  (`Except String _` for steps that can throw, plain values for steps
  whose internal errors are already caught by the source).
-/

/-- JavaScript `Math.round`: round half towards positive infinity. -/
def jsRound (q : ℚ) : ℤ := ⌊q + 1/2⌋

/-- JavaScript `a || d` for an optional numeric field: `undefined` and
`0` are falsy and select the default. -/
def jsOrNum (v : Option ℚ) (d : ℚ) : ℚ :=
  match v with
  | none => d
  | some x => if x = 0 then d else x

/-- A raw pixel byte buffer: a length and a total read function,
mirroring a JS `Buffer` (reads are guarded by explicit length checks
exactly where the source guards them). -/
structure RawData where
  size : ℕ
  get : ℕ → ℕ

/-! ## IntegrityValidator (`src/lib/validation/jewelryValidator.ts`) -/

/-- The `ValidationResult` record returned by `validateJewelryIntegrity`. -/
structure ValidationResult where
  isValid : Bool
  similarity : ℚ
  deviations : List String
  deriving DecidableEq

/-- Outcomes of the sub-steps of `validateJewelryIntegrity`
(lines 14–31 of jewelryValidator.ts): `extraction` is the outcome of
`extractJewelryFromComposite` (`Except.error` models a thrown error
reaching the enclosing catch; `none` models a falsy buffer, the dead
`!extractedJewelry` branch), and the remaining fields are the values
produced by `calculateSimilarity`, `detectDeviations` and
`performQualityChecks`, each of which catches its own internal errors
and always returns a value. -/
structure ValidationEnv where
  extraction : Except String (Option RawData)
  similarity : ℚ
  deviations : List String
  qualityIssues : List String

/-- `validateJewelryIntegrity` (jewelryValidator.ts lines 9–48):
extraction failure and the outer catch produce
`{isValid: false, similarity: 0, deviations: [message]}`; otherwise
`isValid = (similarity >= 1 - tolerance) && allDeviations.length == 0`
with `allDeviations = deviations ++ qualityIssues`. -/
def validateJewelryIntegrity (env : ValidationEnv) (tolerance : ℚ) :
    ValidationResult :=
  match env.extraction with
  | .error msg =>
      { isValid := false, similarity := 0,
        deviations := ["Validation error: " ++ msg] }
  | .ok none =>
      { isValid := false, similarity := 0,
        deviations := ["Failed to extract jewelry from composite result"] }
  | .ok (some _) =>
      let allDeviations := env.deviations ++ env.qualityIssues
      { isValid := decide (env.similarity ≥ 1 - tolerance) &&
          decide (allDeviations.length = 0),
        similarity := env.similarity,
        deviations := allDeviations }

/-! ## Regions and `combineRegions` (jewelryValidator.ts lines 400–530) -/

/-- A detector region `{x, y, width, height, confidence}`. -/
structure Region where
  x : ℚ
  y : ℚ
  width : ℚ
  height : ℚ
  confidence : ℚ
  deriving DecidableEq

instance : Inhabited Region := ⟨⟨0, 0, 0, 0, 0⟩⟩

/-- `regionsOverlap` (lines 442–450): axis-aligned rectangle
intersection test (touching rectangles count as overlapping). -/
def regionsOverlap (r1 r2 : Region) : Bool :=
  !(decide (r1.x + r1.width < r2.x) || decide (r2.x + r2.width < r1.x) ||
    decide (r1.y + r1.height < r2.y) || decide (r2.y + r2.height < r1.y))

/-- Minimum of a list of rationals, as `Math.min(...)` over a nonempty
argument list (`mergeRegions` is only ever applied to at least two
regions, so the empty case is unreachable). -/
def qListMin : List ℚ → ℚ
  | [] => 0
  | a :: rest => rest.foldl min a

/-- Maximum of a list of rationals, as `Math.max(...)` over a nonempty
argument list. -/
def qListMax : List ℚ → ℚ
  | [] => 0
  | a :: rest => rest.foldl max a

/-- `mergeRegions` (lines 455–472): bounding rectangle of the regions
with averaged confidence. -/
def mergeRegions (rs : List Region) : Region :=
  let minX := qListMin (rs.map (·.x))
  let minY := qListMin (rs.map (·.y))
  let maxX := qListMax (rs.map (fun r => r.x + r.width))
  let maxY := qListMax (rs.map (fun r => r.y + r.height))
  let avgConfidence := ((rs.map (·.confidence)).foldl (· + ·) 0) / (rs.length : ℚ)
  { x := minX, y := minY, width := maxX - minX, height := maxY - minY,
    confidence := avgConfidence }

/-- Loop of `combineRegions` (lines 403–437): the outer `for i` loop
walks the index list `idxs` (instantiated with `0, …, n-1`); for each
unprocessed index `i` it collects the later unprocessed indices whose
region overlaps region `i` (the inner `for j = i+1` loop scans exactly
the indices after `i`, here the tail of the index list), merges them if
there are any, and marks them processed. -/
def combineLoop (rs : List Region) : List ℕ → List ℕ → List Region
  | _, [] => []
  | processed, i :: rest =>
    if processed.contains i then combineLoop rs processed rest
    else
      let region := rs.getD i default
      let overlapping := i :: rest.filter
        (fun j => !(processed.contains j) &&
          regionsOverlap region (rs.getD j default))
      if 1 < overlapping.length then
        mergeRegions (overlapping.map (fun j => rs.getD j default)) ::
          combineLoop rs (processed ++ overlapping) rest
      else
        region :: combineLoop rs (i :: processed) rest

/-- `combineRegions` (lines 403–437). -/
def combineRegions (rs : List Region) : List Region :=
  combineLoop rs [] (List.range rs.length)

/-- Pairwise non-overlap of the members of a region list. -/
def PairwiseNoOverlap (rs : List Region) : Prop :=
  ∀ i j : Fin rs.length, (i : ℕ) ≠ j →
    regionsOverlap (rs.get i) (rs.get j) = false

/-! ## Vision-model placement parsing
(`src/lib/services/virtualTryOnService.ts`, `parseVisionResponse`) -/

/-- A 2-D point `{x, y}`. -/
structure Vec2 where
  x : ℚ
  y : ℚ
  deriving DecidableEq

/-- JavaScript `s || d` for an optional string field (`undefined` and
the empty string are falsy). -/
def jsOrStr (v : Option String) (d : String) : String :=
  match v with
  | none => d
  | some s => if s = "" then d else s

/-- Numeric fields of the JSON object extracted from the vision
service's free-text response (a missing field is `none`). -/
structure VisionParsed where
  x : Option ℚ
  y : Option ℚ
  scale : Option ℚ
  confidence : Option ℚ
  reasoning : Option String

/-- Outcome of the string handling in `parseVisionResponse`:
`json` if a `{...}` substring was found and `JSON.parse` succeeded,
otherwise `text` with the results of the fallback regex extraction of
`x`, `y` (integer matches of `(\d+)`) and `scale`. -/
inductive VisionParseOutcome where
  | json (parsed : VisionParsed)
  | text (xMatch yMatch : Option ℕ) (scaleMatch : Option ℚ)

/-- The `VisionPositioningResult` record. -/
structure VisionPositioningResult where
  position : Vec2
  scale : ℚ
  confidence : ℚ
  reasoning : String
  deriving DecidableEq

/-- Body of the `try` block of `parseVisionResponse`
(virtualTryOnService.ts lines 341–381): clamp `x`/`y`/`scale`/
`confidence`, then for necklaces correct a `y` landing in the top 35%
(to 55% of canvas height) or the bottom 25% (to 60%), lowering the
confidence by 0.3 with a floor of 0.3; `percentageFromTop` is computed
once from the clamped `y` and used by both band tests. -/
def parseVisionResponseJson (parsed : VisionParsed)
    (canvasWidth canvasHeight : ℚ) (jewelryType : Option String) :
    VisionPositioningResult :=
  let x := max 50 (min (canvasWidth - 50) (jsOrNum parsed.x (canvasWidth / 2)))
  let y := max 50 (min (canvasHeight - 50) (jsOrNum parsed.y (canvasHeight / 2)))
  let scale := max 0.1 (min 2.0 (jsOrNum parsed.scale 0.4))
  let confidence := max 0.0 (min 1.0 (jsOrNum parsed.confidence 0.7))
  let percentageFromTop := y / canvasHeight
  let corrected :=
    if jewelryType = some "necklace" then
      let step1 : ℚ × ℚ :=
        if percentageFromTop < 0.35 then
          (canvasHeight * 0.55, max 0.3 (confidence - 0.3))
        else (y, confidence)
      if percentageFromTop > 0.75 then
        (canvasHeight * 0.6, max 0.3 (step1.2 - 0.3))
      else step1
    else (y, confidence)
  { position := { x := x, y := corrected.1 },
    scale := scale,
    confidence := corrected.2,
    reasoning := jsOrStr parsed.reasoning "AI-analyzed positioning" }

/-- Value of a regex capture ternary `m ? parse(m[1]) : d`. -/
def regexCapture (m : Option ℕ) (d : ℚ) : ℚ :=
  match m with
  | some n => (n : ℚ)
  | none => d

/-- The `catch` block of `parseVisionResponse` (virtualTryOnService.ts
lines 382–412): regex-extract coordinates, correct an out-of-band
necklace `y` to 55% of canvas height (both bands), then clamp; the
confidence is the fixed 0.6. -/
def parseVisionResponseText (xMatch yMatch : Option ℕ)
    (scaleMatch : Option ℚ) (canvasWidth canvasHeight : ℚ)
    (jewelryType : Option String) : VisionPositioningResult :=
  let x : ℚ := regexCapture xMatch (canvasWidth / 2)
  let y : ℚ := regexCapture yMatch (canvasHeight / 2)
  let scale : ℚ := match scaleMatch with | some s => s | none => 0.4
  let y :=
    if jewelryType = some "necklace" then
      let percentageFromTop := y / canvasHeight
      if percentageFromTop < 0.35 ∨ percentageFromTop > 0.75 then
        canvasHeight * 0.55
      else y
    else y
  { position := { x := max 50 (min (canvasWidth - 50) x),
                  y := max 50 (min (canvasHeight - 50) y) },
    scale := max 0.1 (min 2.0 scale),
    confidence := 0.6,
    reasoning := "Parsed from text analysis" }

/-- `parseVisionResponse` (virtualTryOnService.ts lines 335–413). -/
def parseVisionResponse (outcome : VisionParseOutcome)
    (canvasWidth canvasHeight : ℚ) (jewelryType : Option String) :
    VisionPositioningResult :=
  match outcome with
  | .json parsed =>
      parseVisionResponseJson parsed canvasWidth canvasHeight jewelryType
  | .text xMatch yMatch scaleMatch =>
      parseVisionResponseText xMatch yMatch scaleMatch
        canvasWidth canvasHeight jewelryType

/-- `getFallbackPositioning` (virtualTryOnService.ts lines 418–463). -/
def getFallbackPositioning (jewelryType : String)
    (canvasWidth canvasHeight : ℚ) : VisionPositioningResult :=
  let centerX := canvasWidth / 2
  let centerY := canvasHeight / 2
  if jewelryType = "necklace" then
    { position := { x := centerX, y := canvasHeight * 0.55 }, scale := 0.35,
      confidence := 0.5,
      reasoning := "Fallback anatomical positioning for necklace at chest level" }
  else if jewelryType = "ring" then
    { position := { x := centerX * 1.2, y := centerY * 1.1 }, scale := 0.3,
      confidence := 0.5, reasoning := "Fallback hand positioning for ring" }
  else if jewelryType = "earrings" then
    { position := { x := centerX * 0.85, y := canvasHeight * 0.25 }, scale := 0.25,
      confidence := 0.5, reasoning := "Fallback ear positioning for earrings" }
  else if jewelryType = "bracelet" then
    { position := { x := centerX * 1.15, y := centerY * 1.2 }, scale := 0.4,
      confidence := 0.5, reasoning := "Fallback wrist positioning for bracelet" }
  else
    { position := { x := centerX, y := centerY }, scale := 0.5,
      confidence := 0.5, reasoning := "Default center positioning" }

/-! ## Gemini-based AI positioning (`src/lib/ai/jewelryPositioning.ts`) -/

/-- The `JewelryPlacementResult` record (core fields; the optional
`anatomyPoints`/`adjustments` payloads are not consumed by the
fallback paths modelled here). -/
structure JewelryPlacementResult where
  position : Vec2
  scale : ℚ
  rotation : ℚ
  confidence : ℚ
  deriving DecidableEq

/-- `getFallbackPosition` (jewelryPositioning.ts lines 430–475):
deterministic per-type positions on the hard-coded 1200×900 canvas. -/
def getFallbackPosition (jewelryType : String) : JewelryPlacementResult :=
  let canvasWidth : ℚ := 1200
  let canvasHeight : ℚ := 900
  let centerX := canvasWidth / 2
  let centerY := canvasHeight / 2
  if jewelryType = "necklace" then
    { position := { x := centerX, y := centerY * 0.6 }, scale := 0.6,
      rotation := 0, confidence := 0.5 }
  else if jewelryType = "ring" then
    { position := { x := centerX * 1.2, y := centerY * 1.3 }, scale := 0.25,
      rotation := 0, confidence := 0.5 }
  else if jewelryType = "earrings" then
    { position := { x := centerX * 0.85, y := centerY * 0.5 }, scale := 0.2,
      rotation := 0, confidence := 0.5 }
  else if jewelryType = "bracelet" then
    { position := { x := centerX * 1.15, y := centerY * 1.4 }, scale := 0.35,
      rotation := 0, confidence := 0.5 }
  else
    { position := { x := centerX, y := centerY }, scale := 0.4,
      rotation := 0, confidence := 0.5 }

/-- `findOptimalJewelryPosition` (jewelryPositioning.ts lines 31–57):
the Gemini analysis is an external effect; its outcome is `some r` when
the service produced a parsable placement and `none` when it returned
nothing parsable or threw, in which case the deterministic fallback is
used. -/
def findOptimalJewelryPosition (geminiOutcome : Option JewelryPlacementResult)
    (jewelryType : String) : JewelryPlacementResult :=
  match geminiOutcome with
  | some r => r
  | none => getFallbackPosition jewelryType

/-! ## Compositor (`src/lib/image/composition.ts`,
`compositeJewelryOnModel`) -/

/-- An encoded image buffer: opaque payload bytes (the compositor never
inspects pixel values of the buffers it shuffles between sharp calls). -/
structure ImageBuf where
  bytes : List ℕ
  deriving DecidableEq

/-- Width/height metadata of an image. -/
structure ImageDim where
  width : ℚ
  height : ℚ
  deriving DecidableEq

/-- The `JewelrySegmentation` record as consumed by the compositor
(the mask, preprocessed image and bounding box play no role in
`compositeJewelryOnModel`, which only reads `cleanedJewelry`). -/
structure CompositorSegmentation where
  cleanedJewelry : Option ImageBuf

/-- The perspective class `front | side | angled`. -/
inductive Perspective where
  | front
  | side
  | angled
  deriving DecidableEq

/-- Placement of jewelry on a body image: normalized-or-pixel position,
scale, rotation in degrees, perspective class. -/
structure PlacementCalculation where
  x : ℚ
  y : ℚ
  scale : ℚ
  rotation : ℚ
  perspective : Perspective
  deriving DecidableEq

/-- The `ShadowConfig` record. -/
structure ShadowConfig where
  opacity : ℚ
  blur : ℚ
  color : String
  offsetX : ℚ
  offsetY : ℚ

/-- Per-jewelry-type sizing of `compositeJewelryOnModel`
(composition.ts lines 556–572): target jewelry width (capped at the
jewelry's own width) and the fraction of the body-image height at
which the jewelry is positioned. -/
def compositeSizing (jewelryType : Option String)
    (modelW jewelryW : ℚ) : ℚ × ℚ :=
  if jewelryType = some "necklace" then (min (modelW * 0.4) jewelryW, 0.35)
  else if jewelryType = some "ring" then (min (modelW * 0.15) jewelryW, 0.6)
  else if jewelryType = some "earrings" then (min (modelW * 0.08) jewelryW, 0.25)
  else (min (modelW * 0.25) jewelryW, 0.7)

/-- The geometry computed by `compositeJewelryOnModel`
(composition.ts lines 556–607): target size of the resized jewelry and
the clamped top-left corner at which it is composited. -/
structure CompositeGeometry where
  targetWidth : ℚ
  resizeW : ℤ
  resizeH : ℤ
  left : ℤ
  top : ℤ
  deriving DecidableEq

/-- Geometry of `compositeJewelryOnModel` (composition.ts lines
556–607): type-specific target width `min(fraction·modelWidth,
jewelryWidth)`, aspect-preserving height, horizontal centering, top
edge at the type-specific height fraction, caller offset, and the
`Math.max(0, ·)` clamp applied to the top-left corner. -/
def compositeGeometry (jewelryType : Option String)
    (model jewelry : ImageDim) (positionOffset : Option Vec2) :
    CompositeGeometry :=
  let sizing := compositeSizing jewelryType model.width jewelry.width
  let targetJewelryWidth := sizing.1
  let yPosFraction := sizing.2
  let scaleFactor := targetJewelryWidth / jewelry.width
  let targetJewelryHeight := jsRound (jewelry.height * scaleFactor)
  let left := jsRound ((model.width - targetJewelryWidth) / 2)
  let top := jsRound (model.height * yPosFraction)
  let withOffset : ℚ × ℚ :=
    match positionOffset with
    | some o => ((left : ℚ) + o.x, (top : ℚ) + o.y)
    | none => ((left : ℚ), (top : ℚ))
  { targetWidth := targetJewelryWidth,
    resizeW := jsRound targetJewelryWidth,
    resizeH := targetJewelryHeight,
    left := max 0 (jsRound withOffset.1),
    top := max 0 (jsRound withOffset.2) }

/-- External sharp operations performed by `compositeJewelryOnModel`;
each may reject, in which case the enclosing `catch` returns the
untouched body image. `modelMeta`/`jewelryMeta` are
`sharp(·).metadata()`, `resize` the aspect-preserving resize of the
cleaned jewelry, and `overlay` the final `composite([...])` with
`blend: 'over'` at the given clamped top-left corner. -/
structure CompositeEnv where
  modelMeta : ImageBuf → Except String ImageDim
  jewelryMeta : ImageBuf → Except String ImageDim
  resize : ImageBuf → ℤ → ℤ → Except String ImageBuf
  overlay : ImageBuf → ImageBuf → ℤ → ℤ → Except String ImageBuf

/-- The `try` body of `compositeJewelryOnModel` (composition.ts lines
536–614).  The `placement` and `shadowSettings` parameters are
accepted but — exactly as in the source, which only logs them — never
used by the computation. -/
def compositeJewelryOnModelTry (env : CompositeEnv) (modelImage : ImageBuf)
    (segmentedJewelry : CompositorSegmentation)
    (_placement : PlacementCalculation) (_shadowSettings : Option ShadowConfig)
    (positionOffset : Option Vec2) (jewelryType : Option String) :
    Except String ImageBuf := do
  let modelMetadata ← env.modelMeta modelImage
  match segmentedJewelry.cleanedJewelry with
  | none => pure modelImage
  | some jewelryBuffer => do
    let jewelryMetadata ← env.jewelryMeta jewelryBuffer
    let g := compositeGeometry jewelryType modelMetadata jewelryMetadata
      positionOffset
    let resizedJewelry ← env.resize jewelryBuffer g.resizeW g.resizeH
    env.overlay modelImage resizedJewelry g.left g.top

/-- `compositeJewelryOnModel` (composition.ts lines 528–622): on any
rejected step the `catch` returns the untouched body image. -/
def compositeJewelryOnModel (env : CompositeEnv) (modelImage : ImageBuf)
    (segmentedJewelry : CompositorSegmentation)
    (placement : PlacementCalculation) (shadowSettings : Option ShadowConfig)
    (positionOffset : Option Vec2) (jewelryType : Option String) : ImageBuf :=
  match compositeJewelryOnModelTry env modelImage segmentedJewelry placement
    shadowSettings positionOffset jewelryType with
  | .ok result => result
  | .error _ => modelImage

/-! ## Heuristic anatomical placement (`src/lib/image/placement.ts`,
`calculateJewelryPlacement`) -/

/-- Decoded raw pixel data of an image, as returned by
`sharp(·).raw().toBuffer({resolveWithObject: true})`. -/
structure RawImage where
  width : ℕ
  height : ℕ
  channels : ℕ
  data : ℕ → ℕ

/-- The RGB skin rule used (twice, inlined) by the placement module:
`r>95 ∧ g>40 ∧ b>20 ∧ max−min>15 ∧ |r−g|>15 ∧ r>g ∧ r>b`. -/
def skinCheck (r g b : ℕ) : Bool :=
  decide (95 < r) && decide (40 < g) && decide (20 < b) &&
  decide (15 < max r (max g b) - min r (min g b)) &&
  decide (15 < ((r : ℤ) - g).natAbs) && decide (g < r) && decide (b < r)

/-- `detectSkinRegions` (placement.ts lines 758–780): boolean mask in
row-major order, index `y*width + x`. -/
def detectSkinRegions (raw : RawImage) : List Bool :=
  (List.range raw.height).flatMap (fun y =>
    (List.range raw.width).map (fun x =>
      let pixelIndex := (y * raw.width + x) * raw.channels
      skinCheck (raw.data pixelIndex) (raw.data (pixelIndex + 1))
        (raw.data (pixelIndex + 2))))

/-- Result record of `floodFill` (placement.ts lines 814–855). -/
structure FloodRegion where
  left : ℤ
  right : ℤ
  top : ℤ
  bottom : ℤ
  centerX : ℚ
  centerY : ℚ
  area : ℕ
  deriving DecidableEq

/-- Stack loop of `floodFill` (placement.ts lines 827–847).  The
`visited` boolean array is modelled as the set of visited indices.
Neighbours are prepended in reverse push order so the head of the list
is the element JavaScript's `pop()` would return; the traversal order
is in any case irrelevant to the returned bounds/area/centroid. -/
def floodFillGo (mask : List Bool) (width height : ℕ)
    (stack : List (ℤ × ℤ)) (visited : Finset ℕ) (l r t b : ℤ)
    (area : ℕ) (sumX sumY : ℤ) :
    (ℤ × ℤ × ℤ × ℤ × ℕ × ℤ × ℤ) × Finset ℕ :=
  match stack with
  | [] => ((l, r, t, b, area, sumX, sumY), visited)
  | (x, y) :: rest =>
    let idx := (y * (width : ℤ) + x).toNat
    if h : x < 0 ∨ (width : ℤ) ≤ x ∨ y < 0 ∨ (height : ℤ) ≤ y ∨
        idx ∈ visited ∨ ¬ (mask.getD idx false) then
      floodFillGo mask width height rest visited l r t b area sumX sumY
    else
      floodFillGo mask width height
        ((x, y - 1) :: (x, y + 1) :: (x - 1, y) :: (x + 1, y) :: rest)
        (insert idx visited) (min l x) (max r x) (min t y) (max b y)
        (area + 1) (sumX + x) (sumY + y)
termination_by
  ((Finset.range (width * height)) \ visited).card * 5 + stack.length
decreasing_by
· simp only [List.length_cons]
  omega
· push_neg at h
  obtain ⟨hx0, hxw, hy0, hyh, hvis, _⟩ := h
  have hew : y * (width : ℤ) + x < ((width * height : ℕ) : ℤ) := by
    push_cast
    nlinarith
  have hez : 0 ≤ y * (width : ℤ) + x := by nlinarith
  have hidx : idx < width * height := by
    simp only [idx]
    omega
  have hmem : idx ∈ Finset.range (width * height) \ visited :=
    Finset.mem_sdiff.mpr ⟨Finset.mem_range.mpr hidx, hvis⟩
  have hcard : ((Finset.range (width * height)) \ insert idx visited).card <
      ((Finset.range (width * height)) \ visited).card := by
    rw [Finset.sdiff_insert]
    have := Finset.card_erase_of_mem hmem
    have hpos : 0 < ((Finset.range (width * height)) \ visited).card :=
      Finset.card_pos.mpr ⟨idx, hmem⟩
    omega
  simp only [List.length_cons]
  simp only [idx] at hcard
  omega

/-- `floodFill` (placement.ts lines 814–855): bounds, centroid and
pixel area of the connected component of the start pixel, threading
the shared `visited` set. -/
def floodFill (mask : List Bool) (visited : Finset ℕ)
    (startX startY : ℕ) (width height : ℕ) : FloodRegion × Finset ℕ :=
  let res := floodFillGo mask width height [((startX : ℤ), (startY : ℤ))]
    visited startX startX startY startY 0 0 0
  let vals := res.1
  ({ left := vals.1, right := vals.2.1, top := vals.2.2.1,
     bottom := vals.2.2.2.1,
     centerX := (vals.2.2.2.2.2.1 : ℚ) / (vals.2.2.2.2.1 : ℚ),
     centerY := (vals.2.2.2.2.2.2 : ℚ) / (vals.2.2.2.2.1 : ℚ),
     area := vals.2.2.2.2.1 }, res.2)

/-- Scan loop of `findLargestRegion` (placement.ts lines 785–809):
walk all cells in row-major order, flood-filling each unvisited mask
pixel and keeping the component with the strictly largest area. -/
def findLargestRegionGo (mask : List Bool) (width height : ℕ) :
    List (ℕ × ℕ) → Finset ℕ → Option FloodRegion → ℕ → Option FloodRegion
  | [], _, best, _ => best
  | (x, y) :: cells, visited, best, maxArea =>
    let index := y * width + x
    if mask.getD index false ∧ index ∉ visited then
      let fr := floodFill mask visited x y width height
      if maxArea < fr.1.area then
        findLargestRegionGo mask width height cells fr.2 (some fr.1) fr.1.area
      else
        findLargestRegionGo mask width height cells fr.2 best maxArea
    else
      findLargestRegionGo mask width height cells visited best maxArea

/-- `findLargestRegion` (placement.ts lines 785–809). -/
def findLargestRegion (mask : List Bool) (width height : ℕ) :
    Option FloodRegion :=
  findLargestRegionGo mask width height
    ((List.range height).flatMap (fun y =>
      (List.range width).map (fun x => (x, y)))) ∅ none 0

/-- Integer steps `lo, lo+step, …` up to and including `hi`
(the `for (v = lo; v <= hi; v += step)` loop pattern). -/
def stepsFromTo (lo hi : ℤ) (step : ℕ) : List ℤ :=
  (List.range (((hi - lo) / (step : ℤ) + 1).toNat)).map
    (fun k => lo + (step : ℤ) * k)

/-- `detectFingerTips` (placement.ts lines 860–904): scan every fifth
column of the expanded hand box for its topmost skin pixel, then keep
only the topmost tip overall. -/
def detectFingerTips (raw : RawImage) (handRegion : FloodRegion) :
    List (ℤ × ℤ) :=
  let searchTop := max 0 (handRegion.top - 20)
  let searchBottom := min ((raw.height : ℤ) - 1) (handRegion.bottom + 20)
  let searchLeft := max 0 (handRegion.left - 20)
  let searchRight := min ((raw.width : ℤ) - 1) (handRegion.right + 20)
  let fingerTips := (stepsFromTo searchLeft searchRight 5).filterMap
    (fun x =>
      ((stepsFromTo searchTop searchBottom 1).find? (fun y =>
        let pixelIndex := (y * (raw.width : ℤ) + x).toNat * raw.channels
        skinCheck (raw.data pixelIndex) (raw.data (pixelIndex + 1))
          (raw.data (pixelIndex + 2)))).map (fun y => (x, y)))
  match fingerTips.mergeSort (fun a b => decide (a.2 ≤ b.2)) with
  | [] => []
  | tip :: _ => [tip]

/-- An anatomical landmark in normalized coordinates. -/
structure Landmark where
  x : ℚ
  y : ℚ
  z : ℚ
  deriving DecidableEq

/-- The `BodyLandmarks` record. -/
structure BodyLandmarks where
  face : Option (List Landmark) := none
  hands : Option (List Landmark) := none

/-- `detectHandLandmarks` (placement.ts lines 137–176). -/
def detectHandLandmarks (raw : RawImage) : List Landmark :=
  let skinMask := detectSkinRegions raw
  match findLargestRegion skinMask raw.width raw.height with
  | some handRegion =>
    match detectFingerTips raw handRegion with
    | tip :: _ =>
        [{ x := (tip.1 : ℚ) / (raw.width : ℚ),
           y := (tip.2 : ℚ) / (raw.height : ℚ), z := 0 }]
    | [] =>
        [{ x := handRegion.centerX / (raw.width : ℚ),
           y := handRegion.centerY / (raw.height : ℚ), z := 0 }]
  | none => [{ x := 0.6, y := 0.5, z := 0 }]

/-- `detectFaceRegion` (placement.ts lines 909–931): largest skin
component, accepted only if it covers more than 2% of the image and
its aspect ratio lies strictly between 0.6 and 1.4. -/
def detectFaceRegion (raw : RawImage) : Option FloodRegion :=
  let skinMask := detectSkinRegions raw
  match findLargestRegion skinMask raw.width raw.height with
  | some faceRegion =>
    if (faceRegion.area : ℚ) > (raw.width : ℚ) * (raw.height : ℚ) * 0.02 then
      let faceWidth : ℚ := ((faceRegion.right - faceRegion.left : ℤ) : ℚ)
      let faceHeight : ℚ := ((faceRegion.bottom - faceRegion.top : ℤ) : ℚ)
      let aspect := faceWidth / faceHeight
      if aspect > 0.6 ∧ aspect < 1.4 then some faceRegion else none
    else none
  | none => none

/-- `detectNeckLandmarks` (placement.ts lines 181–206). -/
def detectNeckLandmarks (raw : RawImage) : List Landmark :=
  match detectFaceRegion raw with
  | some faceRegion =>
    let neckY : ℚ := (faceRegion.bottom : ℚ) +
      ((raw.height : ℚ) - (faceRegion.bottom : ℚ)) * 0.1
    [{ x := faceRegion.centerX / (raw.width : ℚ),
       y := neckY / (raw.height : ℚ), z := 0 }]
  | none => [{ x := 0.5, y := 0.35, z := 0 }]

/-- `detectEarLandmarks` (placement.ts lines 211–248). -/
def detectEarLandmarks (raw : RawImage) : List Landmark :=
  match detectFaceRegion raw with
  | some faceRegion =>
    [{ x := ((faceRegion.left : ℚ) - 20) / (raw.width : ℚ),
       y := faceRegion.centerY / (raw.height : ℚ), z := 0 },
     { x := ((faceRegion.right : ℚ) + 20) / (raw.width : ℚ),
       y := faceRegion.centerY / (raw.height : ℚ), z := 0 }]
  | none =>
    [{ x := 0.35, y := 0.25, z := 0 }, { x := 0.65, y := 0.25, z := 0 }]

/-- `analyzeImageForLandmarks` (placement.ts lines 110–132). -/
def analyzeImageForLandmarks (raw : RawImage) (jewelryType : String) :
    BodyLandmarks :=
  if jewelryType = "ring" ∨ jewelryType = "bracelet" then
    { hands := some (detectHandLandmarks raw) }
  else if jewelryType = "necklace" then
    { face := some (detectNeckLandmarks raw) }
  else if jewelryType = "earrings" then
    { face := some (detectEarLandmarks raw) }
  else {}

/-- `estimateLandmarks` (placement.ts lines 280–312): the fallback
estimate used when decoding the image for landmark analysis throws. -/
def estimateLandmarks (jewelryType : String) : BodyLandmarks :=
  if jewelryType = "ring" then
    { hands := some [{ x := 0.6, y := 0.5, z := 0 }] }
  else if jewelryType = "necklace" then
    { face := some [{ x := 0.5, y := 0.3, z := 0 }] }
  else if jewelryType = "earrings" then
    { face := some [{ x := 0.35, y := 0.25, z := 0 },
                    { x := 0.65, y := 0.25, z := 0 }] }
  else if jewelryType = "bracelet" then
    { hands := some [{ x := 0.4, y := 0.6, z := 0 }] }
  else {}

/-- `detectBodyLandmarks` (placement.ts lines 96–105): `decoded` is
`some` raw data when `sharp(·).raw()` decodes the body image, `none`
when it throws, which the catch resolves via `estimateLandmarks`. -/
def detectBodyLandmarks (decoded : Option RawImage) (jewelryType : String) :
    BodyLandmarks :=
  match decoded with
  | some raw => analyzeImageForLandmarks raw jewelryType
  | none => estimateLandmarks jewelryType

/-- Result of `analyzeLandmarkOrientation`. -/
structure LandmarkOrientation where
  faceProfile : ℚ
  handAngle : Option ℚ
  bodyTilt : ℚ
  deriving DecidableEq

/-- `analyzeLandmarkOrientation` (placement.ts lines 543–610). -/
def analyzeLandmarkOrientation (landmarks : BodyLandmarks) :
    LandmarkOrientation :=
  let withFace : LandmarkOrientation :=
    match landmarks.face with
    | some (leftEar :: rightEar :: _) =>
      let earDistance := |leftEar.x - rightEar.x|
      let earYDifference := |leftEar.y - rightEar.y|
      let faceProfile : ℚ :=
        if earDistance < 0.15 then 0.9
        else if earDistance < 0.25 then 0.6
        else if earDistance < 0.35 then 0.3
        else 0.1
      if earYDifference > 0.05 then
        { faceProfile := min 1.0 (faceProfile + 0.2), handAngle := none,
          bodyTilt := (leftEar.y - rightEar.y) * 180 }
      else
        { faceProfile := faceProfile, handAngle := none, bodyTilt := 0 }
    | _ => { faceProfile := 0, handAngle := none, bodyTilt := 0 }
  match landmarks.hands with
  | some (hand :: _) =>
    let distanceFromCenter := |hand.x - 0.5|
    let handAngle : ℚ :=
      if distanceFromCenter > 0.3 then (hand.x - 0.5) * 90 else 0
    let handAngle : ℚ :=
      if hand.y < 0.4 then handAngle + 15
      else if hand.y > 0.7 then handAngle - 10
      else handAngle
    { withFace with handAngle := some handAngle }
  | _ => withFace

/-- `calculatePerspective` (placement.ts lines 494–538). -/
def calculatePerspective (jewelryType : String)
    (landmarks : BodyLandmarks) : Perspective :=
  let orientation := analyzeLandmarkOrientation landmarks
  if jewelryType = "ring" then
    match orientation.handAngle with
    | some a => if |a| > 30 then .angled else .front
    | none => .angled
  else if jewelryType = "necklace" then
    if orientation.faceProfile > 0.7 then .side
    else if orientation.faceProfile > 0.3 then .angled
    else .front
  else if jewelryType = "earrings" then
    if orientation.faceProfile > 0.5 then .side
    else if orientation.faceProfile > 0.2 then .angled
    else .front
  else if jewelryType = "bracelet" then
    match orientation.handAngle with
    | some a => if |a| > 45 then .side else .angled
    | none => .angled
  else
    if orientation.faceProfile > 0.4 then .side else .front

/-- `calculateRotation` (placement.ts lines 615–682), clamped to
±45 degrees. -/
def calculateRotation (jewelryType : String) (landmarks : BodyLandmarks)
    (perspective : Perspective) : ℚ :=
  let orientation := analyzeLandmarkOrientation landmarks
  let baseRotation : ℚ :=
    if jewelryType = "ring" then
      if perspective = .angled then
        -15 + (match orientation.handAngle with
               | some a => a * 0.3
               | none => 0)
      else if perspective = .side then
        (match orientation.handAngle with | some a => a | none => -25)
      else 0
    else if jewelryType = "necklace" then
      let base := orientation.bodyTilt * 0.5
      if perspective = .side then base + (-10)
      else if perspective = .angled then
        base + (if orientation.faceProfile > 0.5 then (-8 : ℚ) else 8)
      else base
    else if jewelryType = "earrings" then
      let base := orientation.bodyTilt * 0.7
      if perspective = .side then base + (-5)
      else if perspective = .angled then
        base + (if orientation.faceProfile > 0.5 then (-3 : ℚ) else 3)
      else base
    else if jewelryType = "bracelet" then
      if perspective = .angled then
        10 + (match orientation.handAngle with
              | some a => a * 0.4
              | none => 0)
      else if perspective = .side then
        (match orientation.handAngle with | some a => a * 0.6 | none => 15)
      else 0
    else orientation.bodyTilt * 0.3
  max (-45) (min 45 baseRotation)

/-- The `JewelryDimensions` record (millimetres). -/
structure JewelryDimensions where
  width : ℚ
  height : ℚ
  depth : ℚ

/-- `calculateRingScale` (placement.ts lines 253–257). -/
def calculateRingScale (d : JewelryDimensions) : ℚ := d.width / 18

/-- `calculateNecklaceScale` (placement.ts lines 259–263). -/
def calculateNecklaceScale (d : JewelryDimensions) : ℚ :=
  min (d.width / 120) 1.5

/-- `calculateEarringScale` (placement.ts lines 265–269). -/
def calculateEarringScale (d : JewelryDimensions) : ℚ := d.height / 17

/-- `calculateBraceletScale` (placement.ts lines 271–275). -/
def calculateBraceletScale (d : JewelryDimensions) : ℚ := d.width / 65

/-- `calculateJewelryPlacement` (placement.ts lines 8–80): heuristic
anatomical estimation returning normalized coordinates (the defaults
`x = y = 0.5`, `scale = 1.0` survive when the type-specific landmark
condition fails).  `decoded` is the raw decode outcome of the body
image (`none` when undecodable).  The outer catch's fallback
`{0.5, 0.5, 1.0, 0, front}` is unreachable here because every inner
failure is already resolved by `detectBodyLandmarks`. -/
def calculateJewelryPlacement (decoded : Option RawImage)
    (jewelryDimensions : JewelryDimensions) (jewelryType : String) :
    PlacementCalculation :=
  let landmarks := detectBodyLandmarks decoded jewelryType
  let perspective := calculatePerspective jewelryType landmarks
  let rotation := calculateRotation jewelryType landmarks perspective
  let xys : ℚ × ℚ × ℚ :=
    if jewelryType = "ring" then
      match landmarks.hands with
      | some (hand :: _) =>
          (hand.x, hand.y, calculateRingScale jewelryDimensions)
      | _ => (0.5, 0.5, 1.0)
    else if jewelryType = "necklace" then
      match landmarks.face with
      | some (facePoint :: _) =>
          (facePoint.x, facePoint.y + 0.15,
            calculateNecklaceScale jewelryDimensions)
      | _ => (0.5, 0.5, 1.0)
    else if jewelryType = "earrings" then
      match landmarks.face with
      | some (ear1 :: ear2 :: _) =>
          ((ear1.x + ear2.x) / 2, ear1.y,
            calculateEarringScale jewelryDimensions)
      | _ => (0.5, 0.5, 1.0)
    else if jewelryType = "bracelet" then
      match landmarks.hands with
      | some (hand :: _) =>
          (hand.x, hand.y + 0.1, calculateBraceletScale jewelryDimensions)
      | _ => (0.5, 0.5, 1.0)
    else (0.5, 0.5, 1.0)
  { x := xys.1, y := xys.2.1, scale := xys.2.2, rotation := rotation,
    perspective := perspective }

/-! ## JewelrySegmenter (`src/lib/image/segmentation.ts`,
`segmentJewelry`) -/

/-- A per-type mask strategy result `{mask, confidence}`. -/
structure MaskResult where
  mask : ImageBuf
  confidence : ℚ
  deriving DecidableEq

/-- The `JewelrySegmentation` record returned by `segmentJewelry`. -/
structure SegmentationOutput where
  jewelryMask : ImageBuf
  jewelryImage : ImageBuf
  boundingBox : Region
  cleanedJewelry : ImageBuf
  deriving DecidableEq

/-- Outcomes of the awaited steps of `segmentJewelry`
(segmentation.ts lines 10–95): `decode` covers the sharp
normalization and the metadata checks (an undecodable buffer or
missing/zero dimensions is an `error`); the five strategy fields are
the per-type mask strategies dispatched by
`applyJewelrySpecificSegmentation`; `aiRemoval` is the AI background
removal whose failure is recovered by `traditionalRemoval`. -/
structure SegmentationEnv where
  decode : Except String ImageDim
  preprocess : Except String ImageBuf
  ringStrategy : Except String MaskResult
  necklaceStrategy : Except String MaskResult
  earringsStrategy : Except String MaskResult
  braceletStrategy : Except String MaskResult
  genericStrategy : Except String MaskResult
  refineMask : ImageBuf → Except String ImageBuf
  aiRemoval : Except String ImageBuf
  traditionalRemoval : ImageBuf → ImageBuf → Except String ImageBuf
  boundingBoxOf : ImageBuf → Except String Region

/-- `applyJewelrySpecificSegmentation` (segmentation.ts lines
101–125): a plain switch with no error recovery; the generic strategy
is reached only through the `default` case. -/
def applyJewelrySpecificSegmentation (env : SegmentationEnv)
    (jewelryType : String) : Except String MaskResult :=
  if jewelryType = "ring" then env.ringStrategy
  else if jewelryType = "necklace" then env.necklaceStrategy
  else if jewelryType = "earrings" then env.earringsStrategy
  else if jewelryType = "bracelet" then env.braceletStrategy
  else env.genericStrategy

/-- The `try` body of `segmentJewelry` (segmentation.ts lines 14–89). -/
def segmentJewelryTry (env : SegmentationEnv) (jewelryType : String) :
    Except String SegmentationOutput := do
  let _dims ← env.decode
  let preprocessed ← env.preprocess
  let segmentationResult ← applyJewelrySpecificSegmentation env jewelryType
  let refinedMask ← env.refineMask segmentationResult.mask
  let cleanedJewelry ←
    match env.aiRemoval with
    | .ok cleaned => pure cleaned
    | .error _ => env.traditionalRemoval preprocessed refinedMask
  let boundingBox ← env.boundingBoxOf refinedMask
  pure { jewelryMask := refinedMask, jewelryImage := preprocessed,
         boundingBox := boundingBox, cleanedJewelry := cleanedJewelry }

/-- `segmentJewelry` (segmentation.ts lines 10–95): the outer catch
rethrows every error, prefixed. -/
def segmentJewelry (env : SegmentationEnv) (jewelryType : String) :
    Except String SegmentationOutput :=
  match segmentJewelryTry env jewelryType with
  | .ok result => .ok result
  | .error e => .error ("Segmentation failed: " ++ e)

/-! ## Validator region detection
(`src/lib/validation/jewelryValidator.ts` lines 54–151 and 156–530) -/

/-- Block start offsets of the sliding-window detectors: the values
taken by `for (v = 0; v < dimension - blockSize; v += step)`. -/
def blockStarts (dimension blockSize step : ℕ) : List ℕ :=
  (List.range (dimension - blockSize)).filter (fun v => v % step == 0)

/-- `analyzeMetallicProperties` (jewelryValidator.ts lines 256–310):
average per-pixel metallic score of a block (the `lab` buffer is read
but its values are unused by the score; only its length guard
matters). -/
def analyzeMetallicProperties (rgbData labData : RawData)
    (x y size width height : ℕ) : ℚ :=
  let cells := ((List.range size).filter (fun dy => decide (y + dy < height))).flatMap
    (fun dy =>
      ((List.range size).filter (fun dx => decide (x + dx < width))).map
        (fun dx => (dx, dy)))
  let scores := cells.filterMap (fun c =>
    let pixelIndex := ((y + c.2) * width + (x + c.1)) * 3
    if pixelIndex + 2 < rgbData.size ∧ pixelIndex + 2 < labData.size then
      let r := rgbData.get pixelIndex
      let g := rgbData.get (pixelIndex + 1)
      let b := rgbData.get (pixelIndex + 2)
      let brightness : ℚ := ((r + g + b : ℕ) : ℚ) / 3
      let saturation := max r (max g b) - min r (min g b)
      some ((if brightness > 150 then (0.3 : ℚ) else 0) +
        (if saturation < 50 then (0.2 : ℚ) else 0) +
        (if g < r ∧ b < g ∧ 180 < r then (0.3 : ℚ) else 0) +
        (if ((r : ℤ) - g).natAbs < 20 ∧ ((g : ℤ) - b).natAbs < 20 ∧
            brightness > 120 then (0.2 : ℚ) else 0))
    else none)
  if 0 < scores.length then
    (scores.foldl (· + ·) 0) / (scores.length : ℚ)
  else 0

/-- `calculateEdgeStrength` (jewelryValidator.ts lines 315–356):
average Sobel magnitude of the interior of a block, normalized by 255
and capped at 1.  `sqrtFn` abstracts JavaScript's `Math.sqrt` (an
irrational-valued external function; no theorem below depends on its
values). -/
def calculateEdgeStrength (sqrtFn : ℚ → ℚ) (grayData : RawData)
    (x y size width height : ℕ) : ℚ :=
  let sobelX : List ℤ := [-1, 0, 1, -2, 0, 2, -1, 0, 1]
  let sobelY : List ℤ := [-1, -2, -1, 0, 0, 0, 1, 2, 1]
  let cells := ((List.range size).filter
      (fun dy => decide (1 ≤ dy) && decide (dy < size - 1) &&
        decide (y + dy < height - 1))).flatMap
    (fun dy =>
      ((List.range size).filter
          (fun dx => decide (1 ≤ dx) && decide (dx < size - 1) &&
            decide (x + dx < width - 1))).map
        (fun dx => (dx, dy)))
  let taps := (List.range 3).flatMap (fun a => (List.range 3).map (fun b => (a, b)))
  let magnitudes := cells.map (fun c =>
    let g : ℤ × ℤ := taps.foldl (fun acc t =>
      let pixelIndex : ℤ := ((y + c.2 : ℤ) + (t.1 - 1)) * width +
        ((x + c.1 : ℤ) + (t.2 - 1))
      if 0 ≤ pixelIndex ∧ pixelIndex < (grayData.size : ℤ) then
        let kernelIndex := t.1 * 3 + t.2
        let pixelValue := grayData.get pixelIndex.toNat
        (acc.1 + pixelValue * sobelX.getD kernelIndex 0,
         acc.2 + pixelValue * sobelY.getD kernelIndex 0)
      else acc) (0, 0)
    sqrtFn ((g.1 * g.1 + g.2 * g.2 : ℤ) : ℚ))
  let averageEdgeStrength : ℚ :=
    if 0 < magnitudes.length then
      (magnitudes.foldl (· + ·) 0) / (magnitudes.length : ℚ)
    else 0
  min (averageEdgeStrength / 255) 1.0

/-- An inclusive per-channel RGB range. -/
structure ColorRange where
  rlo : ℕ
  rhi : ℕ
  glo : ℕ
  ghi : ℕ
  blo : ℕ
  bhi : ℕ

/-- The `jewelryColors` table (jewelryValidator.ts lines 226–232):
gold, silver, ruby, sapphire, emerald bands. -/
def jewelryColors : List ColorRange :=
  [⟨200, 255, 180, 230, 100, 170⟩, ⟨180, 220, 180, 220, 180, 220⟩,
   ⟨150, 255, 50, 150, 50, 150⟩, ⟨50, 150, 50, 200, 150, 255⟩,
   ⟨100, 200, 150, 255, 50, 150⟩]

/-- `analyzeJewelryColors` (jewelryValidator.ts lines 361–398):
fraction of block pixels falling in any supplied color range (a pixel
is counted once even if several ranges match). -/
def analyzeJewelryColors (rgbData : RawData) (x y size width height : ℕ)
    (colors : List ColorRange) : ℚ :=
  let cells := ((List.range size).filter (fun dy => decide (y + dy < height))).flatMap
    (fun dy =>
      ((List.range size).filter (fun dx => decide (x + dx < width))).map
        (fun dx => (dx, dy)))
  let flags := cells.filterMap (fun c =>
    let pixelIndex := ((y + c.2) * width + (x + c.1)) * 3
    if pixelIndex + 2 < rgbData.size then
      let r := rgbData.get pixelIndex
      let g := rgbData.get (pixelIndex + 1)
      let b := rgbData.get (pixelIndex + 2)
      some (colors.any (fun cr =>
        decide (cr.rlo ≤ r) && decide (r ≤ cr.rhi) &&
        decide (cr.glo ≤ g) && decide (g ≤ cr.ghi) &&
        decide (cr.blo ≤ b) && decide (b ≤ cr.bhi)))
    else none)
  if 0 < flags.length then
    (((flags.filter id).length : ℚ)) / (flags.length : ℚ)
  else 0

/-- `detectMetallicRegions` (jewelryValidator.ts lines 156–182):
32-pixel blocks at stride 16, emitted when the metallic score exceeds
0.4. -/
def detectMetallicRegions (rgbData labData : RawData)
    (width height : ℕ) : List Region :=
  (blockStarts height 32 16).flatMap (fun y =>
    (blockStarts width 32 16).filterMap (fun x =>
      let confidence := analyzeMetallicProperties rgbData labData x y 32
        width height
      if confidence > 0.4 then
        some ⟨(x : ℚ), (y : ℚ), 32, 32, confidence⟩
      else none))

/-- `detectHighContrastRegions` (jewelryValidator.ts lines 187–212):
24-pixel blocks at stride 12, emitted when the Sobel edge strength
exceeds 0.5. -/
def detectHighContrastRegions (sqrtFn : ℚ → ℚ) (grayData : RawData)
    (width height : ℕ) : List Region :=
  (blockStarts height 24 12).flatMap (fun y =>
    (blockStarts width 24 12).filterMap (fun x =>
      let edgeStrength := calculateEdgeStrength sqrtFn grayData x y 24
        width height
      if edgeStrength > 0.5 then
        some ⟨(x : ℚ), (y : ℚ), 24, 24, min edgeStrength 1.0⟩
      else none))

/-- `detectJewelryColorRegions` (jewelryValidator.ts lines 217–251):
28-pixel blocks at stride 14, emitted when the color-match fraction
exceeds 0.3. -/
def detectJewelryColorRegions (rgbData : RawData)
    (width height : ℕ) : List Region :=
  (blockStarts height 28 14).flatMap (fun y =>
    (blockStarts width 28 14).filterMap (fun x =>
      let colorMatch := analyzeJewelryColors rgbData x y 28 width height
        jewelryColors
      if colorMatch > 0.3 then
        some ⟨(x : ℚ), (y : ℚ), 28, 28, colorMatch⟩
      else none))

/-- `detectJewelryRegions` (jewelryValidator.ts lines 116–151): run
the three detectors, combine, keep confidence > 0.3, sort by
descending confidence (JavaScript's stable sort), keep the top 5. -/
def detectJewelryRegions (sqrtFn : ℚ → ℚ)
    (rgbData labData grayData : RawData) (width height : ℕ) :
    List Region :=
  let metallicRegions := detectMetallicRegions rgbData labData width height
  let edgeRegions := detectHighContrastRegions sqrtFn grayData width height
  let colorRegions := detectJewelryColorRegions rgbData width height
  let combinedRegions :=
    combineRegions (metallicRegions ++ edgeRegions ++ colorRegions)
  ((combinedRegions.filter (fun r => decide (r.confidence > 0.3))).mergeSort
    (fun a b => decide (b.confidence ≤ a.confidence))).take 5

/-- `selectBestJewelryRegion` (jewelryValidator.ts lines 477–530):
argmax of `confidence + area-fitness bonus + 0.3·centrality`; on an
empty candidate list, the centered square covering 30% of the smaller
dimension with confidence 0.1. -/
def selectBestJewelryRegion (sqrtFn : ℚ → ℚ) (regions : List Region)
    (imageWidth imageHeight : ℚ) : Region :=
  match regions.map (fun region =>
      let area := region.width * region.height
      let imageArea := imageWidth * imageHeight
      let areaFraction := area / imageArea
      let withArea := region.confidence +
        (if areaFraction > 0.05 ∧ areaFraction < 0.4 then (0.2 : ℚ) else 0)
      let regionCenterX := region.x + region.width / 2
      let regionCenterY := region.y + region.height / 2
      let distanceFromCenter := sqrtFn
        ((regionCenterX - imageWidth / 2) * (regionCenterX - imageWidth / 2) +
         (regionCenterY - imageHeight / 2) * (regionCenterY - imageHeight / 2))
      let maxDistance := sqrtFn
        ((imageWidth / 2) * (imageWidth / 2) +
         (imageHeight / 2) * (imageHeight / 2))
      let centralityScore := 1 - distanceFromCenter / maxDistance
      (region, withArea + centralityScore * 0.3)) with
  | [] =>
    let size := min imageWidth imageHeight * 0.3
    ⟨(imageWidth - size) / 2, (imageHeight - size) / 2, size, size, 0.1⟩
  | s :: rest =>
    (rest.foldl (fun best current =>
      if current.2 > best.2 then current else best) s).1

/-- Extraction rectangle of the detected-region path of
`extractJewelryFromComposite` (jewelryValidator.ts lines 72–86):
10% padding, clamped left/top, right/bottom limited to the image,
each coordinate passed through `Math.round`. -/
def extractRect (bestRegion : Region) (width height : ℕ) :
    ℤ × ℤ × ℤ × ℤ :=
  let padding := min bestRegion.width bestRegion.height * 0.1
  let extractLeft := max 0 (bestRegion.x - padding)
  let extractTop := max 0 (bestRegion.y - padding)
  let extractWidth := min ((width : ℚ) - extractLeft)
    (bestRegion.width + 2 * padding)
  let extractHeight := min ((height : ℚ) - extractTop)
    (bestRegion.height + 2 * padding)
  (jsRound extractLeft, jsRound extractTop, jsRound extractWidth,
    jsRound extractHeight)

/-- Extraction rectangle of the center-crop fallback path of
`extractJewelryFromComposite` (jewelryValidator.ts lines 98–108). -/
def centerCropRect (width height : ℕ) : ℤ × ℤ × ℤ × ℤ :=
  let cropSize := min (width : ℚ) (height : ℚ) * 0.3
  (jsRound (((width : ℚ) - cropSize) / 2),
   jsRound (((height : ℚ) - cropSize) / 2),
   jsRound cropSize, jsRound cropSize)

/-- A concrete segmentation environment in which decoding and every
step succeed except the ring strategy, while the generic strategy
would succeed — exercising the failure semantics of `segmentJewelry`. -/
def segEnvRingFails : SegmentationEnv :=
  { decode := .ok ⟨512, 512⟩,
    preprocess := .ok ⟨[1]⟩,
    ringStrategy := .error "ring strategy failed",
    necklaceStrategy := .ok ⟨⟨[2]⟩, 0.88⟩,
    earringsStrategy := .ok ⟨⟨[3]⟩, 0.75⟩,
    braceletStrategy := .ok ⟨⟨[4]⟩, 0.7⟩,
    genericStrategy := .ok ⟨⟨[5]⟩, 0.6⟩,
    refineMask := fun m => .ok m,
    aiRemoval := .error "ai removal failed",
    traditionalRemoval := fun _ _ => .ok ⟨[6]⟩,
    boundingBoxOf := fun _ => .ok ⟨0, 0, 10, 10, 1⟩ }

/-- A rational that is an even integer.  Every coordinate of every
region produced by the validator's three detectors is an even natural
(block starts are multiples of 16, 12 or 14 and block sizes are 32, 24
or 28), and `combineRegions` merges by min/max of such coordinates, so
the invariant is preserved through the whole detection pipeline.  It is
what makes the `Math.round`ed padded extraction rectangle stay inside
the image. -/
def EvenQ (q : ℚ) : Prop := ∃ n : ℤ, q = ((2 * n : ℤ) : ℚ)

/-- All four geometry fields of a region are even integers. -/
def EvenIntRegion (r : Region) : Prop :=
  EvenQ r.x ∧ EvenQ r.y ∧ EvenQ r.width ∧ EvenQ r.height

/-- Concrete 29×29 composite data: every pixel is the gold tone
(210, 200, 150). -/
def rgbGold : RawData :=
  ⟨2523, fun i => if i % 3 = 0 then 210 else if i % 3 = 1 then 200 else 150⟩

/-- Concrete 29×29 greyscale data: a flat mid-grey. -/
def grayFlat : RawData := ⟨841, fun _ => 100⟩

/-- Concrete 29×29 Lab data (the metallic analyzer only checks its
length). -/
def labZero : RawData := ⟨2523, fun _ => 0⟩

theorem combineLoop_of_noOverlap (rs : List Region)
    (hno : PairwiseNoOverlap rs) :
    ∀ (idxs : List ℕ) (processed : List ℕ), idxs.Nodup →
      (∀ j ∈ idxs, j < rs.length) → (∀ a ∈ processed, a ∉ idxs) →
      combineLoop rs processed idxs =
        idxs.map (fun j => rs.getD j default) := by
  intro idxs
  induction idxs with
  | nil => intro processed _ _ _; rfl
  | cons i rest ih =>
    intro processed hnd hlen hdisj
    have hcont : processed.contains i = false := by
      by_contra hc
      have hi : i ∈ processed := by simpa using Bool.of_not_eq_false hc
      exact hdisj i hi (List.mem_cons_self i rest)
    have hilen : i < rs.length := hlen i (List.mem_cons_self i rest)
    have hfilter : rest.filter
        (fun j => !(processed.contains j) &&
          regionsOverlap (rs.getD i default) (rs.getD j default)) = [] := by
      apply List.filter_eq_nil_iff.mpr
      intro j hj
      have hjlen : j < rs.length := hlen j (List.mem_cons_of_mem i hj)
      have hij : i ≠ j := by
        rintro rfl
        exact (List.nodup_cons.mp hnd).1 hj
      have hov := hno ⟨i, hilen⟩ ⟨j, hjlen⟩ (by simpa using hij)
      simp only [List.get_eq_getElem] at hov
      simp [List.getD, List.getElem?_eq_getElem hilen,
        List.getElem?_eq_getElem hjlen, hov]
    rw [combineLoop]
    simp only [hcont, Bool.false_eq_true, if_false, hfilter]
    have hrec := ih (i :: processed) (List.nodup_cons.mp hnd).2
      (fun j hj => hlen j (List.mem_cons_of_mem i hj))
      (by
        intro a ha
        rcases List.mem_cons.mp ha with rfl | ha
        · exact (List.nodup_cons.mp hnd).1
        · intro hmem
          exact hdisj a ha (List.mem_cons_of_mem i hmem))
    simp [hrec]

theorem combineRegions_of_noOverlap (rs : List Region)
    (hno : PairwiseNoOverlap rs) : combineRegions rs = rs := by
  have h := combineLoop_of_noOverlap rs hno (List.range rs.length) []
    (List.nodup_range _) (fun j hj => List.mem_range.mp hj) (by simp)
  rw [combineRegions, h]
  apply List.ext_getElem
  · simp
  · intro n h1 h2
    simp [List.getD, List.getElem?_eq_getElem h2]

/-! ## Claim C1 -/

/-- C1: for every original jewelry photo, composite image and
tolerance, `validateJewelryIntegrity` returns `isValid = true` exactly
when the returned overall similarity is at least `1 - tolerance` and
the returned combined list of deviation entries and quality issues is
empty; if either condition fails, `isValid` is `false`. -/
theorem validateJewelryIntegrity_isValid_iff (env : ValidationEnv)
    (tolerance : ℚ) :
    (validateJewelryIntegrity env tolerance).isValid = true ↔
      (1 - tolerance ≤ (validateJewelryIntegrity env tolerance).similarity ∧
        (validateJewelryIntegrity env tolerance).deviations = []) := by
  rcases hex : env.extraction with msg | o
  · simp [validateJewelryIntegrity, hex]
  · rcases o with _ | b <;>
      simp [validateJewelryIntegrity, hex, List.length_eq_zero, and_comm]

/-! ## Claim C8 -/

/-- C8 counterexample: `combineRegions` is not idempotent.  Regions
`A = (0,0,10,10)` and `B = (9,9,10,10)` overlap and merge into the
bounding box `(0,0,19,19)`, which overlaps `C = (15,0,3,3)` even
though neither `A` nor `B` did; the second application therefore
merges further and changes the rectangle set. -/
theorem combineRegions_not_idempotent :
    combineRegions (combineRegions
      [⟨0, 0, 10, 10, 1⟩, ⟨9, 9, 10, 10, 1⟩, ⟨15, 0, 3, 3, 1⟩]) ≠
    combineRegions [⟨0, 0, 10, 10, 1⟩, ⟨9, 9, 10, 10, 1⟩, ⟨15, 0, 3, 3, 1⟩] := by
  norm_num [combineRegions, combineLoop, regionsOverlap, mergeRegions,
    qListMin, qListMax, List.range_succ]

/-- C8 (amended): `combineRegions` is the identity — and therefore
idempotent — on every list of pairwise non-overlapping regions; on
general inputs a second application can merge further (the merge is a
single pairwise pass, not a closure). -/
theorem combineRegions_idempotent_of_noOverlap (rs : List Region)
    (hno : PairwiseNoOverlap rs) :
    combineRegions rs = rs ∧
      combineRegions (combineRegions rs) = combineRegions rs := by
  have h := combineRegions_of_noOverlap rs hno
  rw [h]
  exact ⟨rfl, h⟩

/-- C8 witness: the amended theorem applied to two disjoint concrete
regions. -/
theorem combineRegions_idempotent_witness :
    combineRegions [⟨0, 0, 10, 10, 1⟩, ⟨30, 30, 5, 5, 1⟩] =
        [⟨0, 0, 10, 10, 1⟩, ⟨30, 30, 5, 5, 1⟩] ∧
      combineRegions (combineRegions [⟨0, 0, 10, 10, 1⟩, ⟨30, 30, 5, 5, 1⟩]) =
        combineRegions [⟨0, 0, 10, 10, 1⟩, ⟨30, 30, 5, 5, 1⟩] :=
  combineRegions_idempotent_of_noOverlap _ (by
    intro i j hij
    fin_cases i <;> fin_cases j <;>
      first
        | exact absurd rfl hij
        | norm_num [regionsOverlap])

/-! ## Claim C9 -/

/-- C9: the composite output is independent of the `placement`
argument — `compositeJewelryOnModel` only logs it and computes the
geometry from the jewelry type and the drag offset, so any two
placement values yield identical composites. -/
theorem compositeJewelryOnModel_placement_independent
    (env : CompositeEnv) (modelImage : ImageBuf)
    (seg : CompositorSegmentation) (p1 p2 : PlacementCalculation)
    (shadow : Option ShadowConfig) (off : Option Vec2)
    (ty : Option String) :
    compositeJewelryOnModel env modelImage seg p1 shadow off ty =
      compositeJewelryOnModel env modelImage seg p2 shadow off ty := rfl

/-! ## Claim C6 -/

/-- C6: on a missing cleaned-jewelry buffer, and on any step of the
composition pipeline rejecting, `compositeJewelryOnModel` returns the
untouched body image instead of throwing. -/
theorem compositeJewelryOnModel_failure_returns_model
    (env : CompositeEnv) (modelImage : ImageBuf)
    (seg : CompositorSegmentation) (p : PlacementCalculation)
    (shadow : Option ShadowConfig) (off : Option Vec2)
    (ty : Option String) :
    (seg.cleanedJewelry = none →
      compositeJewelryOnModel env modelImage seg p shadow off ty =
        modelImage) ∧
    (∀ e, compositeJewelryOnModelTry env modelImage seg p shadow off ty =
        .error e →
      compositeJewelryOnModel env modelImage seg p shadow off ty =
        modelImage) := by
  constructor
  · intro hnone
    rcases hmeta : env.modelMeta modelImage with msg | d <;>
      simp [compositeJewelryOnModel, compositeJewelryOnModelTry, hmeta, hnone]
  · intro e herr
    simp [compositeJewelryOnModel, herr]

/-- C6 witness: the theorem applied to a concrete environment whose
model-metadata step rejects, with a missing cleaned-jewelry buffer. -/
theorem compositeJewelryOnModel_failure_witness :
    compositeJewelryOnModel
        ⟨fun _ => .error "decode failed", fun _ => .error "e",
          fun _ _ _ => .error "e", fun _ _ _ _ => .error "e"⟩
        ⟨[7, 7]⟩ ⟨none⟩ ⟨0.5, 0.5, 1, 0, .front⟩ none none
        (some "necklace") = ⟨[7, 7]⟩ :=
  (compositeJewelryOnModel_failure_returns_model _ _ _ _ _ _ _).1 rfl

/-! ## Claim C5 -/

/-- C5 counterexample: the compositor's target width is
`min(fraction·bodyWidth, jewelryWidth)`, not the fraction itself
(here a 100-pixel-wide necklace on a 1000-pixel body yields 100, not
400), and the type-specific vertical fraction positions the jewelry's
top edge, not its center (top = 350 = 0.35·1000, so the 50-pixel-tall
jewelry's center sits at 375 ≠ 350). -/
theorem compositeGeometry_fraction_counterexample :
    (compositeGeometry (some "necklace") ⟨1000, 1000⟩ ⟨100, 50⟩
        none).targetWidth = 100 ∧
    (100 : ℚ) ≠ 1000 * 0.4 ∧
    (compositeGeometry (some "necklace") ⟨1000, 1000⟩ ⟨100, 50⟩
        none).top = 350 ∧
    (compositeGeometry (some "necklace") ⟨1000, 1000⟩ ⟨100, 50⟩
        none).resizeH = 50 ∧
    (350 : ℚ) + 50 / 2 ≠ 1000 * 0.35 := by
  norm_num [compositeGeometry, compositeSizing, jsRound]

/-- C5 (amended): for every body image, cleaned jewelry image,
jewelry type and optional pixel offset, the compositor's target
jewelry width is `min(fraction·bodyWidth, jewelryWidth)` with the
type-specific fraction (necklace 40%, ring 15%, earrings 8%,
bracelet/other 25%), the height is scaled by the same factor
(preserving aspect ratio), the jewelry is horizontally centered, its
top edge (not its center) is placed at the type-specific vertical
fraction of the body height (necklace 35%, ring 60%, earrings 25%,
bracelet/other 70%), the caller offset is added, and the top-left
corner is clamped to be at least (0,0). -/
theorem compositeGeometry_spec (ty : Option String)
    (model jewelry : ImageDim) (off : Option Vec2) :
    (compositeGeometry ty model jewelry off).targetWidth =
      min (model.width *
        (if ty = some "necklace" then (0.4 : ℚ)
         else if ty = some "ring" then 0.15
         else if ty = some "earrings" then 0.08 else 0.25)) jewelry.width ∧
    (compositeGeometry ty model jewelry off).resizeW =
      jsRound (compositeGeometry ty model jewelry off).targetWidth ∧
    (compositeGeometry ty model jewelry off).resizeH =
      jsRound (jewelry.height *
        ((compositeGeometry ty model jewelry off).targetWidth /
          jewelry.width)) ∧
    (compositeGeometry ty model jewelry off).left =
      max 0 (jsRound
        ((jsRound ((model.width -
            (compositeGeometry ty model jewelry off).targetWidth) / 2) : ℚ) +
          (off.getD ⟨0, 0⟩).x)) ∧
    (compositeGeometry ty model jewelry off).top =
      max 0 (jsRound
        ((jsRound (model.height *
            (if ty = some "necklace" then (0.35 : ℚ)
             else if ty = some "ring" then 0.6
             else if ty = some "earrings" then 0.25 else 0.7)) : ℚ) +
          (off.getD ⟨0, 0⟩).y)) := by
  rcases off with _ | o <;>
    · simp only [compositeGeometry, compositeSizing]
      split_ifs <;> simp

/-! ## Claim C4 -/

/-- C4 counterexample: the heuristic estimator with no detectable face
(an all-black 2×2 body image) returns the normalized placement
`{x: 0.5, y: 0.5, scale: 1, rotation: 0, perspective: front}` — which
carries no confidence field at all — and not the claimed fallback
`{x: 600, y: 270, scale: 0.6, rotation: 0, confidence: 0.5}`. -/
theorem calculateJewelryPlacement_noFace_counterexample :
    calculateJewelryPlacement (some ⟨2, 2, 3, fun _ => 0⟩) ⟨120, 50, 10⟩
        "necklace" = ⟨1/2, 1/2, 1, 0, .front⟩ ∧
      (1 : ℚ) / 2 ≠ 600 := by
  constructor
  · norm_num [calculateJewelryPlacement, detectBodyLandmarks,
      analyzeImageForLandmarks, detectNeckLandmarks, detectFaceRegion,
      detectSkinRegions, skinCheck, findLargestRegion, findLargestRegionGo,
      List.range_succ, calculatePerspective, calculateRotation,
      analyzeLandmarkOrientation, calculateNecklaceScale,
      show ("necklace" : String) ≠ "ring" from by decide,
      show ("necklace" : String) ≠ "bracelet" from by decide,
      show ("necklace" : String) ≠ "earrings" from by decide]
    rw [if_neg (by decide), if_neg (by decide)]
    norm_num [min_def, max_def]
  · norm_num

/-- C4 (amended): the record
`{x: 600, y: 270, scale: 0.6, rotation: 0, confidence: 0.5}` is the
deterministic fallback of the Gemini-based AI positioning path
(`getFallbackPosition`, on its hard-coded 1200×900 canvas), returned by
`findOptimalJewelryPosition` for a necklace whenever the AI analysis
fails or yields nothing parsable; every per-type fallback of that path
carries confidence 0.5.  The heuristic anatomical estimator
(`calculateJewelryPlacement`) never fails but returns normalized
coordinates with no confidence field (see the counterexample). -/
theorem findOptimalJewelryPosition_fallback (jewelryType : String) :
    findOptimalJewelryPosition none jewelryType =
        getFallbackPosition jewelryType ∧
      (getFallbackPosition jewelryType).confidence = 0.5 ∧
      getFallbackPosition "necklace" =
        { position := { x := 600, y := 270 }, scale := 0.6, rotation := 0,
          confidence := 0.5 } := by
  refine ⟨rfl, ?_, ?_⟩
  · unfold getFallbackPosition
    split_ifs <;> rfl
  · norm_num [getFallbackPosition]

/-! ## Claim C3 -/

theorem clamp_le_bounds {a b : ℚ} (v : ℚ) (hab : a ≤ b) :
    a ≤ max a (min b v) ∧ max a (min b v) ≤ b :=
  ⟨le_max_left a _, max_le hab (min_le_left b v)⟩

set_option maxHeartbeats 1000000 in
/-- C3 counterexample: the heuristic anatomical strategy does not
satisfy the claimed pixel bounds — on an all-black 2×2 body image a
necklace placement comes back with the normalized `x = 0.5`, violating
`50 ≤ x` for any canvas. -/
theorem calculateJewelryPlacement_bounds_counterexample :
    (calculateJewelryPlacement (some ⟨2, 2, 3, fun _ => 0⟩) ⟨240, 50, 10⟩
        "necklace").x = 1/2 ∧
      ¬ (50 ≤ (1 : ℚ) / 2) := by
  constructor
  · norm_num [calculateJewelryPlacement, detectBodyLandmarks,
      analyzeImageForLandmarks, detectNeckLandmarks, detectFaceRegion,
      detectSkinRegions, skinCheck, findLargestRegion, findLargestRegionGo,
      List.range_succ,
      show ("necklace" : String) ≠ "ring" from by decide,
      show ("necklace" : String) ≠ "bracelet" from by decide,
      show ("necklace" : String) ≠ "earrings" from by decide]
  · norm_num

/-- C3 (amended): the clamping guarantee holds for the vision-model
strategy: on every parsing path of `parseVisionResponse` (JSON and
regex fallback), whenever the canvas is at least 100 pixels in each
dimension, the returned position satisfies `50 ≤ x ≤ canvasWidth−50`
and `50 ≤ y ≤ canvasHeight−50`, the scale satisfies
`0.1 ≤ scale ≤ 2.0`, and the confidence lies in `[0,1]`.  The
heuristic anatomical strategy instead returns normalized coordinates
and an unclamped scale (see the counterexample). -/
theorem parseVisionResponse_bounds (outcome : VisionParseOutcome)
    (W H : ℚ) (ty : Option String) (hW : 100 ≤ W) (hH : 100 ≤ H) :
    50 ≤ (parseVisionResponse outcome W H ty).position.x ∧
    (parseVisionResponse outcome W H ty).position.x ≤ W - 50 ∧
    50 ≤ (parseVisionResponse outcome W H ty).position.y ∧
    (parseVisionResponse outcome W H ty).position.y ≤ H - 50 ∧
    0.1 ≤ (parseVisionResponse outcome W H ty).scale ∧
    (parseVisionResponse outcome W H ty).scale ≤ 2.0 ∧
    0 ≤ (parseVisionResponse outcome W H ty).confidence ∧
    (parseVisionResponse outcome W H ty).confidence ≤ 1 := by
  have hH0 : (0 : ℚ) < H := by linarith
  have hW50 : (50 : ℚ) ≤ W - 50 := by linarith
  have hH50 : (50 : ℚ) ≤ H - 50 := by linarith
  cases outcome with
  | json parsed =>
    obtain ⟨hx1, hx2⟩ := clamp_le_bounds (jsOrNum parsed.x (W / 2)) hW50
    obtain ⟨hy1, hy2⟩ := clamp_le_bounds (jsOrNum parsed.y (H / 2)) hH50
    obtain ⟨hs1, hs2⟩ := clamp_le_bounds (v := jsOrNum parsed.scale 0.4)
      (show (0.1 : ℚ) ≤ 2.0 by norm_num)
    obtain ⟨hc1, hc2⟩ := clamp_le_bounds (v := jsOrNum parsed.confidence 0.7)
      (show (0.0 : ℚ) ≤ 1.0 by norm_num)
    simp only [parseVisionResponse, parseVisionResponseJson]
    set y0 := max 50 (min (H - 50) (jsOrNum parsed.y (H / 2))) with hy0def
    set c0 := max 0.0 (min 1.0 (jsOrNum parsed.confidence 0.7)) with hc0def
    have hcpen1 : (0 : ℚ) ≤ max 0.3 (c0 - 0.3) :=
      le_trans (by norm_num) (le_max_left _ _)
    have hcpen2 : max 0.3 (c0 - 0.3) ≤ 1 := max_le (by norm_num) (by linarith)
    by_cases hty : ty = some "necklace"
    · rw [if_pos hty]
      by_cases h75 : y0 / H > 0.75
      · have hylo : 0.75 * H < y0 := by
          rwa [gt_iff_lt, lt_div_iff hH0] at h75
        have h35 : ¬ (y0 / H < 0.35) := by
          rw [div_lt_iff hH0]
          intro hcon
          linarith
        rw [if_pos h75, if_neg h35]
        exact ⟨hx1, hx2, by linarith, by linarith, hs1, hs2, hcpen1, hcpen2⟩
      · by_cases h35 : y0 / H < 0.35
        · have hyhi : y0 < 0.35 * H := by rwa [div_lt_iff hH0] at h35
          rw [if_neg h75, if_pos h35]
          exact ⟨hx1, hx2, by linarith, by linarith, hs1, hs2, hcpen1, hcpen2⟩
        · rw [if_neg h75, if_neg h35]
          exact ⟨hx1, hx2, hy1, hy2, hs1, hs2, by linarith, by linarith⟩
    · rw [if_neg hty]
      exact ⟨hx1, hx2, hy1, hy2, hs1, hs2, by linarith, by linarith⟩
  | text xM yM sM =>
    simp only [parseVisionResponse, parseVisionResponseText]
    refine ⟨(clamp_le_bounds _ hW50).1, (clamp_le_bounds _ hW50).2,
      (clamp_le_bounds _ hH50).1, (clamp_le_bounds _ hH50).2,
      (clamp_le_bounds _ (show (0.1 : ℚ) ≤ 2.0 by norm_num)).1,
      (clamp_le_bounds _ (show (0.1 : ℚ) ≤ 2.0 by norm_num)).2,
      by norm_num, by norm_num⟩

/-- C3 witness: the amended bounds applied to a concrete
regex-fallback parse on a 1200×900 canvas. -/
theorem parseVisionResponse_bounds_witness :
    (100 ≤ (1200 : ℚ)) ∧ (100 ≤ (900 : ℚ)) ∧
    (50 ≤ (parseVisionResponse (.text (some 700) (some 100) (some 5))
        1200 900 (some "necklace")).position.x ∧
     (parseVisionResponse (.text (some 700) (some 100) (some 5))
        1200 900 (some "necklace")).position.x ≤ 1200 - 50 ∧
     50 ≤ (parseVisionResponse (.text (some 700) (some 100) (some 5))
        1200 900 (some "necklace")).position.y ∧
     (parseVisionResponse (.text (some 700) (some 100) (some 5))
        1200 900 (some "necklace")).position.y ≤ 900 - 50 ∧
     0.1 ≤ (parseVisionResponse (.text (some 700) (some 100) (some 5))
        1200 900 (some "necklace")).scale ∧
     (parseVisionResponse (.text (some 700) (some 100) (some 5))
        1200 900 (some "necklace")).scale ≤ 2.0 ∧
     0 ≤ (parseVisionResponse (.text (some 700) (some 100) (some 5))
        1200 900 (some "necklace")).confidence ∧
     (parseVisionResponse (.text (some 700) (some 100) (some 5))
        1200 900 (some "necklace")).confidence ≤ 1) :=
  ⟨by norm_num, by norm_num,
    parseVisionResponse_bounds (.text (some 700) (some 100) (some 5))
      1200 900 (some "necklace") (by norm_num) (by norm_num)⟩

/-! ## Claim C2 -/

/-- C2 counterexample: on the regex-extraction fallback path the
documented necklace correction does not apply — a raw `y = 800` on a
1200×900 canvas lies above 75% of canvas height, yet the returned `y`
is 55% of canvas height (495), not the documented 60% (540), and the
returned confidence is the fixed fallback 0.6 rather than any value
reduced by exactly 0.3. -/
theorem parseVisionResponse_text_correction_counterexample :
    (parseVisionResponse (.text (some 600) (some 800) none) 1200 900
        (some "necklace")).position.y = 495 ∧
      (495 : ℚ) ≠ 900 * 0.6 ∧
      (parseVisionResponse (.text (some 600) (some 800) none) 1200 900
        (some "necklace")).confidence = 0.6 := by
  refine ⟨?_, by norm_num, ?_⟩ <;>
    norm_num [parseVisionResponse, parseVisionResponseText, regexCapture]

/-- C2 (amended): on the JSON parsing path the necklace correction is
as documented: writing `y0`/`c0` for the clamped parsed coordinate and
confidence, a `y0` below 35% of canvas height is moved to 55% and one
above 75% to 60%, each with confidence `max 0.3 (c0 − 0.3)` (a 0.3
penalty floored at 0.3).  On the regex-extraction fallback path the
correction differs: both out-of-band cases move `y` to 55% of canvas
height (then clamp), and the confidence is the fixed fallback 0.6
with no penalty. -/
theorem parseVisionResponse_necklace_correction (parsed : VisionParsed)
    (xM yM : Option ℕ) (sM : Option ℚ) (W H : ℚ) :
    ((max 50 (min (H - 50) (jsOrNum parsed.y (H / 2)))) / H < 0.35 →
      (parseVisionResponseJson parsed W H (some "necklace")).position.y =
          H * 0.55 ∧
        (parseVisionResponseJson parsed W H (some "necklace")).confidence =
          max 0.3 (max 0.0 (min 1.0 (jsOrNum parsed.confidence 0.7)) - 0.3)) ∧
    ((max 50 (min (H - 50) (jsOrNum parsed.y (H / 2)))) / H > 0.75 →
      (parseVisionResponseJson parsed W H (some "necklace")).position.y =
          H * 0.6 ∧
        (parseVisionResponseJson parsed W H (some "necklace")).confidence =
          max 0.3 (max 0.0 (min 1.0 (jsOrNum parsed.confidence 0.7)) - 0.3)) ∧
    (regexCapture yM (H / 2) / H < 0.35 ∨
        regexCapture yM (H / 2) / H > 0.75 →
      (parseVisionResponseText xM yM sM W H (some "necklace")).position.y =
          max 50 (min (H - 50) (H * 0.55)) ∧
        (parseVisionResponseText xM yM sM W H (some "necklace")).confidence =
          0.6) := by
  refine ⟨?_, ?_, ?_⟩
  · intro h35
    have h75 : ¬ ((max 50 (min (H - 50) (jsOrNum parsed.y (H / 2)))) / H >
        0.75) := by
      intro hcon
      rw [gt_iff_lt] at hcon
      linarith
    constructor <;>
      · simp only [parseVisionResponseJson]
        rw [if_neg h75, if_pos h35]
        simp
  · intro h75
    have h35 : ¬ ((max 50 (min (H - 50) (jsOrNum parsed.y (H / 2)))) / H <
        0.35) := by
      intro hcon
      rw [gt_iff_lt] at h75
      linarith
    constructor <;>
      · simp only [parseVisionResponseJson]
        rw [if_pos h75, if_neg h35]
        simp
  · intro hband
    constructor
    · simp only [parseVisionResponseText]
      rw [if_pos hband]
      simp
    · rfl

/-- C2 witness: the amended JSON-path correction applied to a concrete
parse whose `y` (100 on a 900-pixel canvas) lies in the top 35%. -/
theorem parseVisionResponse_necklace_correction_witness :
    ((max 50 (min ((900 : ℚ) - 50) (jsOrNum (some 100) (900 / 2)))) / 900 <
        0.35) ∧
    ((parseVisionResponseJson ⟨some 600, some 100, none, some 0.9, none⟩
        1200 900 (some "necklace")).position.y = 900 * 0.55 ∧
      (parseVisionResponseJson ⟨some 600, some 100, none, some 0.9, none⟩
        1200 900 (some "necklace")).confidence =
        max 0.3 (max 0.0 (min 1.0 (jsOrNum (some 0.9) 0.7)) - 0.3)) :=
  ⟨by norm_num [jsOrNum],
    (parseVisionResponse_necklace_correction
      ⟨some 600, some 100, none, some 0.9, none⟩ (some 600) (some 100) none
      1200 900).1 (by norm_num [jsOrNum])⟩

/-! ## Claim C7 -/

/-- C7 counterexample: a failure inside the selected per-type mask
strategy does not degrade to the generic strategy — with a decodable
image, a failing ring strategy and a generic strategy that would
succeed, `segmentJewelry` aborts with a hard `Segmentation failed`
error instead of returning any result. -/
theorem segmentJewelry_strategy_failure_counterexample :
    segmentJewelry segEnvRingFails "ring" =
        .error "Segmentation failed: ring strategy failed" ∧
      ∀ out, segmentJewelry segEnvRingFails "ring" ≠ .ok out := by
  constructor
  · rfl
  · intro out h
    simp [segmentJewelry, segmentJewelryTry,
      applyJewelrySpecificSegmentation, segEnvRingFails, bind,
      Except.bind] at h

/-- C7 (amended): `segmentJewelry`'s failure semantics are: an
undecodable input or missing/zero dimensions fails hard; a failure of
the selected per-type mask strategy also propagates as a hard
`Segmentation failed` error (there is no degradation to the generic
strategy, which is used only for unrecognized jewelry-type strings);
only the AI background-removal step degrades, to the deterministic
pixel-rule remover. -/
theorem segmentJewelry_failure_semantics (env : SegmentationEnv)
    (jewelryType : String) :
    (∀ e, env.decode = .error e →
      segmentJewelry env jewelryType =
        .error ("Segmentation failed: " ++ e)) ∧
    (∀ dims pre e, env.decode = .ok dims → env.preprocess = .ok pre →
      applyJewelrySpecificSegmentation env jewelryType = .error e →
      segmentJewelry env jewelryType =
        .error ("Segmentation failed: " ++ e)) ∧
    (jewelryType ≠ "ring" → jewelryType ≠ "necklace" →
      jewelryType ≠ "earrings" → jewelryType ≠ "bracelet" →
      applyJewelrySpecificSegmentation env jewelryType =
        env.genericStrategy) ∧
    (∀ dims pre seg mask cleaned bbox e, env.decode = .ok dims →
      env.preprocess = .ok pre →
      applyJewelrySpecificSegmentation env jewelryType = .ok seg →
      env.refineMask seg.mask = .ok mask →
      env.aiRemoval = .error e →
      env.traditionalRemoval pre mask = .ok cleaned →
      env.boundingBoxOf mask = .ok bbox →
      segmentJewelry env jewelryType = .ok ⟨mask, pre, bbox, cleaned⟩) := by
  refine ⟨?_, ?_, ?_, ?_⟩
  · intro e hdec
    simp [segmentJewelry, segmentJewelryTry, hdec, bind, Except.bind]
  · intro dims pre e hdec hpre hstrat
    simp [segmentJewelry, segmentJewelryTry, hdec, hpre, hstrat, bind,
      Except.bind]
  · intro h1 h2 h3 h4
    simp [applyJewelrySpecificSegmentation, h1, h2, h3, h4]
  · intro dims pre seg mask cleaned bbox e hdec hpre hstrat hmask hai htrad hbb
    simp [segmentJewelry, segmentJewelryTry, hdec, hpre, hstrat, hmask, hai,
      htrad, hbb, bind, Except.bind, Functor.map, Except.map, pure,
      Except.pure]

/-- C7 witness: the amended failure semantics applied to the concrete
environment with a failing ring strategy (hard failure on the ring
path) and, on the necklace path, a failing AI background removal
recovered by the traditional remover. -/
theorem segmentJewelry_failure_semantics_witness :
    segmentJewelry segEnvRingFails "ring" =
        .error ("Segmentation failed: " ++ "ring strategy failed") ∧
      segmentJewelry segEnvRingFails "necklace" =
        .ok ⟨⟨[2]⟩, ⟨[1]⟩, ⟨0, 0, 10, 10, 1⟩, ⟨[6]⟩⟩ :=
  ⟨(segmentJewelry_failure_semantics segEnvRingFails "ring").2.1
      ⟨512, 512⟩ ⟨[1]⟩ "ring strategy failed" rfl rfl rfl,
    (segmentJewelry_failure_semantics segEnvRingFails "necklace").2.2.2
      ⟨512, 512⟩ ⟨[1]⟩ ⟨⟨[2]⟩, 0.88⟩ ⟨[2]⟩ ⟨[6]⟩ ⟨0, 0, 10, 10, 1⟩
      "ai removal failed" rfl rfl rfl rfl rfl rfl rfl⟩

/-! ## Claim C10 -/

theorem jsRound_intCast_div_ten (n : ℤ) :
    jsRound ((n : ℚ) / 10) = (n + 5) / 10 := by
  rw [jsRound]
  have h : (n : ℚ) / 10 + 1 / 2 = ((n + 5 : ℤ) : ℚ) / ((10 : ℕ) : ℚ) := by
    push_cast
    ring
  rw [h, Rat.floor_intCast_div_natCast]
  norm_num

theorem jsRound_div_ten_nonneg (n : ℤ) (hn : 0 ≤ n) :
    0 ≤ jsRound ((n : ℚ) / 10) := by
  rw [jsRound_intCast_div_ten]
  omega

theorem jsRound_div_ten_add_le (p q Wn : ℤ) (hp : 2 ∣ p) (hq : 2 ∣ q)
    (hpq : p + q ≤ 10 * Wn) :
    jsRound ((p : ℚ) / 10) + jsRound ((q : ℚ) / 10) ≤ Wn := by
  rw [jsRound_intCast_div_ten, jsRound_intCast_div_ten]
  omega

theorem qmax_zero_div_ten (n : ℤ) :
    max 0 ((n : ℚ) / 10) = ((max 0 n : ℤ) : ℚ) / 10 := by
  rcases le_total n 0 with h | h
  · have h1 : ((n : ℚ)) / 10 ≤ 0 := by
      have hn : (n : ℚ) ≤ 0 := by exact_mod_cast h
      linarith
    rw [max_eq_left h1, max_eq_left h]
    norm_num
  · have h1 : (0 : ℚ) ≤ ((n : ℚ)) / 10 := by
      have hn : (0 : ℚ) ≤ (n : ℚ) := by exact_mod_cast h
      linarith
    rw [max_eq_right h1, max_eq_right h]

theorem qmin_div_ten (m n : ℤ) :
    min ((m : ℚ) / 10) ((n : ℚ) / 10) = ((min m n : ℤ) : ℚ) / 10 := by
  rw [Int.cast_min, min_div_div_right (by norm_num : (0 : ℚ) ≤ 10)]

theorem extractRect_bounds (r : Region) (W H : ℕ) (hr : EvenIntRegion r) :
    0 ≤ (extractRect r W H).1 ∧ 0 ≤ (extractRect r W H).2.1 ∧
    (extractRect r W H).1 + (extractRect r W H).2.2.1 ≤ (W : ℤ) ∧
    (extractRect r W H).2.1 + (extractRect r W H).2.2.2 ≤ (H : ℤ) := by
  obtain ⟨⟨a, hxa⟩, ⟨b, hyb⟩, ⟨c, hwc⟩, ⟨d, hhd⟩⟩ := hr
  have hpad : min r.width r.height * 0.1
      = ((min (2 * c) (2 * d) : ℤ) : ℚ) / 10 := by
    rw [hwc, hhd, ← Int.cast_min, show (0.1 : ℚ) = 1 / 10 by norm_num]
    ring
  set m : ℤ := min (2 * c) (2 * d) with hm
  have hL : r.x - min r.width r.height * 0.1
      = ((20 * a - m : ℤ) : ℚ) / 10 := by
    rw [hxa, hpad]
    push_cast
    ring
  have hT : r.y - min r.width r.height * 0.1
      = ((20 * b - m : ℤ) : ℚ) / 10 := by
    rw [hyb, hpad]
    push_cast
    ring
  set La : ℤ := max 0 (20 * a - m) with hLa
  set Ta : ℤ := max 0 (20 * b - m) with hTa
  have hLeft : max 0 (r.x - min r.width r.height * 0.1) = ((La : ℤ) : ℚ) / 10 := by
    rw [hL, qmax_zero_div_ten]
  have hTop : max 0 (r.y - min r.width r.height * 0.1) = ((Ta : ℤ) : ℚ) / 10 := by
    rw [hT, qmax_zero_div_ten]
  have hWsub : (W : ℚ) - ((La : ℤ) : ℚ) / 10
      = ((10 * (W : ℤ) - La : ℤ) : ℚ) / 10 := by
    push_cast
    ring
  have hHsub : (H : ℚ) - ((Ta : ℤ) : ℚ) / 10
      = ((10 * (H : ℤ) - Ta : ℤ) : ℚ) / 10 := by
    push_cast
    ring
  have hWadd : r.width + 2 * (min r.width r.height * 0.1)
      = ((20 * c + 2 * m : ℤ) : ℚ) / 10 := by
    rw [hpad, hwc]
    push_cast
    ring
  have hHadd : r.height + 2 * (min r.width r.height * 0.1)
      = ((20 * d + 2 * m : ℤ) : ℚ) / 10 := by
    rw [hpad, hhd]
    push_cast
    ring
  have e1 : (extractRect r W H).1 = jsRound (((La : ℤ) : ℚ) / 10) := by
    simp only [extractRect]
    rw [hLeft]
  have e2 : (extractRect r W H).2.1 = jsRound (((Ta : ℤ) : ℚ) / 10) := by
    simp only [extractRect]
    rw [hTop]
  have e3 : (extractRect r W H).2.2.1
      = jsRound (((min (10 * (W : ℤ) - La) (20 * c + 2 * m) : ℤ) : ℚ) / 10) := by
    simp only [extractRect]
    rw [hLeft, hWsub, hWadd, qmin_div_ten]
  have e4 : (extractRect r W H).2.2.2
      = jsRound (((min (10 * (H : ℤ) - Ta) (20 * d + 2 * m) : ℤ) : ℚ) / 10) := by
    simp only [extractRect]
    rw [hTop, hHsub, hHadd, qmin_div_ten]
  rw [e1, e2, e3, e4]
  refine ⟨jsRound_div_ten_nonneg La (le_max_left _ _),
    jsRound_div_ten_nonneg Ta (le_max_left _ _), ?_, ?_⟩
  · apply jsRound_div_ten_add_le
    · omega
    · omega
    · have := min_le_left (10 * (W : ℤ) - La) (20 * c + 2 * m)
      omega
  · apply jsRound_div_ten_add_le
    · omega
    · omega
    · have := min_le_left (10 * (H : ℤ) - Ta) (20 * d + 2 * m)
      omega

theorem jsRound_intCast_div_twenty (n : ℤ) :
    jsRound ((n : ℚ) / 20) = (n + 10) / 20 := by
  rw [jsRound]
  have h : (n : ℚ) / 20 + 1 / 2 = ((n + 10 : ℤ) : ℚ) / ((20 : ℕ) : ℚ) := by
    push_cast
    ring
  rw [h, Rat.floor_intCast_div_natCast]
  norm_num

theorem centerCropRect_bounds (W H : ℕ) (hW : 0 < W) (hH : 0 < H) :
    0 ≤ (centerCropRect W H).1 ∧ 0 ≤ (centerCropRect W H).2.1 ∧
    (centerCropRect W H).1 + (centerCropRect W H).2.2.1 ≤ (W : ℤ) ∧
    (centerCropRect W H).2.1 + (centerCropRect W H).2.2.2 ≤ (H : ℤ) := by
  set mn : ℕ := min W H with hmn
  have hcrop : min (W : ℚ) (H : ℚ) * 0.3 = ((6 * (mn : ℤ) : ℤ) : ℚ) / 20 := by
    rw [← Nat.cast_min, show (0.3 : ℚ) = 3 / 10 by norm_num, hmn]
    push_cast
    ring
  have hWc : ((W : ℚ) - ((6 * (mn : ℤ) : ℤ) : ℚ) / 20) / 2
      = ((10 * (W : ℤ) - 3 * (mn : ℤ) : ℤ) : ℚ) / 20 := by
    push_cast
    ring
  have hHc : ((H : ℚ) - ((6 * (mn : ℤ) : ℤ) : ℚ) / 20) / 2
      = ((10 * (H : ℤ) - 3 * (mn : ℤ) : ℤ) : ℚ) / 20 := by
    push_cast
    ring
  have e1 : (centerCropRect W H).1
      = jsRound (((10 * (W : ℤ) - 3 * (mn : ℤ) : ℤ) : ℚ) / 20) := by
    simp only [centerCropRect]
    rw [hcrop, hWc]
  have e2 : (centerCropRect W H).2.1
      = jsRound (((10 * (H : ℤ) - 3 * (mn : ℤ) : ℤ) : ℚ) / 20) := by
    simp only [centerCropRect]
    rw [hcrop, hHc]
  have e3 : (centerCropRect W H).2.2.1
      = jsRound (((6 * (mn : ℤ) : ℤ) : ℚ) / 20) := by
    simp only [centerCropRect]
    rw [hcrop]
  have e4 : (centerCropRect W H).2.2.2
      = jsRound (((6 * (mn : ℤ) : ℤ) : ℚ) / 20) := by
    simp only [centerCropRect]
    rw [hcrop]
  rw [e1, e2, e3, e4, jsRound_intCast_div_twenty, jsRound_intCast_div_twenty,
    jsRound_intCast_div_twenty]
  have h1 : 1 ≤ mn := by omega
  have h2 : mn ≤ W := by omega
  have h3 : mn ≤ H := by omega
  refine ⟨?_, ?_, ?_, ?_⟩ <;> omega

theorem evenQ_zero : EvenQ 0 := ⟨0, by norm_num⟩

theorem evenQ_natCast {n : ℕ} (h : 2 ∣ n) : EvenQ ((n : ℚ)) := by
  obtain ⟨k, hk⟩ := h
  exact ⟨(k : ℤ), by rw [hk]; push_cast; ring⟩

theorem evenQ_add {q r : ℚ} (hq : EvenQ q) (hr : EvenQ r) : EvenQ (q + r) := by
  obtain ⟨n, hn⟩ := hq
  obtain ⟨m, hm⟩ := hr
  exact ⟨n + m, by rw [hn, hm]; push_cast; ring⟩

theorem evenQ_sub {q r : ℚ} (hq : EvenQ q) (hr : EvenQ r) : EvenQ (q - r) := by
  obtain ⟨n, hn⟩ := hq
  obtain ⟨m, hm⟩ := hr
  exact ⟨n - m, by rw [hn, hm]; push_cast; ring⟩

theorem evenQ_min {q r : ℚ} (hq : EvenQ q) (hr : EvenQ r) : EvenQ (min q r) := by
  obtain ⟨n, hn⟩ := hq
  obtain ⟨m, hm⟩ := hr
  refine ⟨min n m, ?_⟩
  rw [hn, hm, ← Int.cast_min]
  congr 1
  omega

theorem evenQ_max {q r : ℚ} (hq : EvenQ q) (hr : EvenQ r) : EvenQ (max q r) := by
  obtain ⟨n, hn⟩ := hq
  obtain ⟨m, hm⟩ := hr
  refine ⟨max n m, ?_⟩
  rw [hn, hm, ← Int.cast_max]
  congr 1
  omega

theorem evenQ_foldl_min (l : List ℚ) (acc : ℚ) (hacc : EvenQ acc)
    (h : ∀ q ∈ l, EvenQ q) : EvenQ (l.foldl min acc) := by
  induction l generalizing acc with
  | nil => exact hacc
  | cons a rest ih =>
    exact ih _ (evenQ_min hacc (h a (List.mem_cons_self a rest)))
      (fun q hq => h q (List.mem_cons_of_mem a hq))

theorem evenQ_foldl_max (l : List ℚ) (acc : ℚ) (hacc : EvenQ acc)
    (h : ∀ q ∈ l, EvenQ q) : EvenQ (l.foldl max acc) := by
  induction l generalizing acc with
  | nil => exact hacc
  | cons a rest ih =>
    exact ih _ (evenQ_max hacc (h a (List.mem_cons_self a rest)))
      (fun q hq => h q (List.mem_cons_of_mem a hq))

theorem evenQ_qListMin (l : List ℚ) (h : ∀ q ∈ l, EvenQ q) :
    EvenQ (qListMin l) := by
  cases l with
  | nil => exact evenQ_zero
  | cons a rest =>
    exact evenQ_foldl_min rest a (h a (List.mem_cons_self a rest))
      (fun q hq => h q (List.mem_cons_of_mem a hq))

theorem evenQ_qListMax (l : List ℚ) (h : ∀ q ∈ l, EvenQ q) :
    EvenQ (qListMax l) := by
  cases l with
  | nil => exact evenQ_zero
  | cons a rest =>
    exact evenQ_foldl_max rest a (h a (List.mem_cons_self a rest))
      (fun q hq => h q (List.mem_cons_of_mem a hq))

theorem evenIntRegion_default : EvenIntRegion default :=
  ⟨evenQ_zero, evenQ_zero, evenQ_zero, evenQ_zero⟩

theorem evenIntRegion_mergeRegions (rs : List Region)
    (h : ∀ r ∈ rs, EvenIntRegion r) : EvenIntRegion (mergeRegions rs) := by
  have hxs : ∀ q ∈ rs.map Region.x, EvenQ q := by
    intro q hq
    obtain ⟨r, hr, rfl⟩ := List.mem_map.mp hq
    exact (h r hr).1
  have hys : ∀ q ∈ rs.map Region.y, EvenQ q := by
    intro q hq
    obtain ⟨r, hr, rfl⟩ := List.mem_map.mp hq
    exact (h r hr).2.1
  have hxws : ∀ q ∈ rs.map (fun r => r.x + r.width), EvenQ q := by
    intro q hq
    obtain ⟨r, hr, rfl⟩ := List.mem_map.mp hq
    exact evenQ_add (h r hr).1 (h r hr).2.2.1
  have hyhs : ∀ q ∈ rs.map (fun r => r.y + r.height), EvenQ q := by
    intro q hq
    obtain ⟨r, hr, rfl⟩ := List.mem_map.mp hq
    exact evenQ_add (h r hr).2.1 (h r hr).2.2.2
  refine ⟨evenQ_qListMin _ hxs, evenQ_qListMin _ hys, ?_, ?_⟩
  · exact evenQ_sub (evenQ_qListMax _ hxws) (evenQ_qListMin _ hxs)
  · exact evenQ_sub (evenQ_qListMax _ hyhs) (evenQ_qListMin _ hys)

theorem evenIntRegion_getD (rs : List Region) (j : ℕ)
    (h : ∀ r ∈ rs, EvenIntRegion r) : EvenIntRegion (rs.getD j default) := by
  by_cases hj : j < rs.length
  · simp only [List.getD_eq_getElem?_getD, List.getElem?_eq_getElem hj,
      Option.getD_some]
    exact h _ (List.getElem_mem hj)
  · have hle : rs.length ≤ j := by omega
    simp only [List.getD_eq_getElem?_getD, List.getElem?_eq_none hle,
      Option.getD_none]
    exact evenIntRegion_default

theorem combineLoop_mem_shape (rs : List Region) :
    ∀ (idxs processed : List ℕ) (r : Region),
      r ∈ combineLoop rs processed idxs →
      (∃ j, r = rs.getD j default) ∨
      (∃ js : List ℕ, r = mergeRegions (js.map (fun j => rs.getD j default))) := by
  intro idxs
  induction idxs with
  | nil =>
    intro processed r hr
    simp [combineLoop] at hr
  | cons i rest ih =>
    intro processed r hr
    rw [combineLoop] at hr
    by_cases hc : processed.contains i
    · rw [if_pos hc] at hr
      exact ih processed r hr
    · rw [if_neg (by simpa using hc)] at hr
      by_cases hlen : 1 < (i :: rest.filter
          (fun j => !(processed.contains j) &&
            regionsOverlap (rs.getD i default) (rs.getD j default))).length
      · rw [if_pos hlen] at hr
        rcases List.mem_cons.mp hr with hmerge | hrec
        · right
          exact ⟨_, hmerge⟩
        · exact ih _ r hrec
      · rw [if_neg hlen] at hr
        rcases List.mem_cons.mp hr with hhead | hrec
        · left
          exact ⟨i, hhead⟩
        · exact ih _ r hrec

theorem evenIntRegion_combineRegions (rs : List Region)
    (h : ∀ r ∈ rs, EvenIntRegion r) :
    ∀ r ∈ combineRegions rs, EvenIntRegion r := by
  intro r hr
  rcases combineLoop_mem_shape rs (List.range rs.length) [] r hr with
    ⟨j, rfl⟩ | ⟨js, rfl⟩
  · exact evenIntRegion_getD rs j h
  · apply evenIntRegion_mergeRegions
    intro s hs
    obtain ⟨j, _, rfl⟩ := List.mem_map.mp hs
    exact evenIntRegion_getD rs j h

theorem blockStarts_even {dimension blockSize step v : ℕ} (hstep : 2 ∣ step)
    (hv : v ∈ blockStarts dimension blockSize step) : 2 ∣ v := by
  rw [blockStarts, List.mem_filter] at hv
  have hmod : v % step = 0 := by simpa using hv.2
  exact dvd_trans hstep (Nat.dvd_of_mod_eq_zero hmod)

theorem evenIntRegion_detectMetallic (rgbData labData : RawData)
    (W H : ℕ) (r : Region)
    (hr : r ∈ detectMetallicRegions rgbData labData W H) :
    EvenIntRegion r := by
  rw [detectMetallicRegions, List.mem_flatMap] at hr
  obtain ⟨y, hy, hr⟩ := hr
  rw [List.mem_filterMap] at hr
  obtain ⟨x, hx, hif⟩ := hr
  have hxe := blockStarts_even (by norm_num) hx
  have hye := blockStarts_even (by norm_num) hy
  by_cases hc : analyzeMetallicProperties rgbData labData x y 32 W H > 0.4
  · rw [if_pos hc, Option.some_inj] at hif
    subst hif
    exact ⟨evenQ_natCast hxe, evenQ_natCast hye, ⟨16, by norm_num⟩,
      ⟨16, by norm_num⟩⟩
  · rw [if_neg hc] at hif
    exact absurd hif (by simp)

theorem evenIntRegion_detectHighContrast (sqrtFn : ℚ → ℚ)
    (grayData : RawData) (W H : ℕ) (r : Region)
    (hr : r ∈ detectHighContrastRegions sqrtFn grayData W H) :
    EvenIntRegion r := by
  rw [detectHighContrastRegions, List.mem_flatMap] at hr
  obtain ⟨y, hy, hr⟩ := hr
  rw [List.mem_filterMap] at hr
  obtain ⟨x, hx, hif⟩ := hr
  have hxe := blockStarts_even (by norm_num) hx
  have hye := blockStarts_even (by norm_num) hy
  by_cases hc : calculateEdgeStrength sqrtFn grayData x y 24 W H > 0.5
  · rw [if_pos hc, Option.some_inj] at hif
    subst hif
    exact ⟨evenQ_natCast hxe, evenQ_natCast hye, ⟨12, by norm_num⟩,
      ⟨12, by norm_num⟩⟩
  · rw [if_neg hc] at hif
    exact absurd hif (by simp)

theorem evenIntRegion_detectJewelryColor (rgbData : RawData)
    (W H : ℕ) (r : Region)
    (hr : r ∈ detectJewelryColorRegions rgbData W H) :
    EvenIntRegion r := by
  rw [detectJewelryColorRegions, List.mem_flatMap] at hr
  obtain ⟨y, hy, hr⟩ := hr
  rw [List.mem_filterMap] at hr
  obtain ⟨x, hx, hif⟩ := hr
  have hxe := blockStarts_even (by norm_num) hx
  have hye := blockStarts_even (by norm_num) hy
  by_cases hc : analyzeJewelryColors rgbData x y 28 W H jewelryColors > 0.3
  · rw [if_pos hc, Option.some_inj] at hif
    subst hif
    exact ⟨evenQ_natCast hxe, evenQ_natCast hye, ⟨14, by norm_num⟩,
      ⟨14, by norm_num⟩⟩
  · rw [if_neg hc] at hif
    exact absurd hif (by simp)

theorem evenIntRegion_detectJewelryRegions (sqrtFn : ℚ → ℚ)
    (rgbData labData grayData : RawData) (W H : ℕ) :
    ∀ r ∈ detectJewelryRegions sqrtFn rgbData labData grayData W H,
      EvenIntRegion r := by
  intro r hr
  rw [detectJewelryRegions] at hr
  have hr2 := List.mem_of_mem_take hr
  rw [List.mem_mergeSort] at hr2
  have hr3 := List.mem_of_mem_filter hr2
  refine evenIntRegion_combineRegions _ ?_ r hr3
  intro s hs
  rcases List.mem_append.mp hs with hs1 | hs2
  · rcases List.mem_append.mp hs1 with hm | he
    · exact evenIntRegion_detectMetallic _ _ _ _ s hm
    · exact evenIntRegion_detectHighContrast _ _ _ _ s he
  · exact evenIntRegion_detectJewelryColor _ _ _ s hs2

theorem foldl_pick_mem (l : List (Region × ℚ)) (s : Region × ℚ) :
    l.foldl (fun best current => if current.2 > best.2 then current else best)
      s = s ∨
    l.foldl (fun best current => if current.2 > best.2 then current else best)
      s ∈ l := by
  induction l generalizing s with
  | nil => exact Or.inl rfl
  | cons a rest ih =>
    rcases ih (if a.2 > s.2 then a else s) with h | h
    · rw [List.foldl_cons, h]
      by_cases hc : a.2 > s.2
      · rw [if_pos hc]
        exact Or.inr (List.mem_cons_self a rest)
      · rw [if_neg hc]
        exact Or.inl rfl
    · exact Or.inr (List.mem_cons_of_mem a h)

theorem selectBestJewelryRegion_mem (sqrtFn : ℚ → ℚ)
    (regions : List Region) (imageWidth imageHeight : ℚ)
    (hne : regions ≠ []) :
    selectBestJewelryRegion sqrtFn regions imageWidth imageHeight ∈
      regions := by
  cases regions with
  | nil => exact absurd rfl hne
  | cons r0 rest =>
    rw [selectBestJewelryRegion]
    simp only [List.map_cons]
    rcases foldl_pick_mem _ _ with h | h
    · rw [h]
      exact List.mem_cons_self r0 rest
    · rcases List.mem_map.mp h with ⟨s, hs, hmap⟩
      rw [← hmap]
      exact List.mem_cons_of_mem r0 hs

theorem foldl_add_map_zero {α : Type} (l : List α) :
    (l.map (fun _ => (0 : ℚ))).foldl (· + ·) 0 = 0 := by
  induction l with
  | nil => rfl
  | cons a rest ih =>
    simp only [List.map_cons, List.foldl_cons, add_zero]
    exact ih

theorem calculateEdgeStrength_zero (grayData : RawData)
    (x y size width height : ℕ) :
    calculateEdgeStrength (fun _ => 0) grayData x y size width height = 0 := by
  simp only [calculateEdgeStrength, foldl_add_map_zero, List.length_map]
  split <;> norm_num [zero_div, min_def]

theorem detectHighContrast_zero (grayData : RawData) (width height : ℕ) :
    detectHighContrastRegions (fun _ => 0) grayData width height = [] := by
  have h5 : ¬((0 : ℚ) > 0.5) := by norm_num
  simp [detectHighContrastRegions, calculateEdgeStrength_zero, h5]

theorem detectMetallic_29 : detectMetallicRegions rgbGold labZero 29 29 = [] :=
  rfl

set_option maxRecDepth 100000 in
theorem analyzeJewelryColors_gold :
    analyzeJewelryColors rgbGold 0 0 28 29 29 jewelryColors = 1 := by
  have key : ∀ flags : List Bool, (flags.filter id).length = 784 →
      flags.length = 784 →
      (if 0 < flags.length then
        (((flags.filter id).length : ℚ)) / (flags.length : ℚ) else 0) = 1 := by
    intro flags h1 h2
    rw [h1, h2, if_pos (by norm_num : (0 : ℕ) < 784)]
    norm_num
  simp only [analyzeJewelryColors]
  exact key _ (by decide) (by decide)

theorem detectColor_gold :
    detectJewelryColorRegions rgbGold 29 29 = [⟨0, 0, 28, 28, 1⟩] := by
  have hb : blockStarts 29 28 14 = [0] := by decide
  have hgt : (1 : ℚ) > 0.3 := by norm_num
  simp [detectJewelryColorRegions, hb, analyzeJewelryColors_gold, hgt]

theorem detect_gold_29 :
    detectJewelryRegions (fun _ => 0) rgbGold labZero grayFlat 29 29 =
      [⟨0, 0, 28, 28, 1⟩] := by
  have hc : combineRegions [(⟨0, 0, 28, 28, 1⟩ : Region)] =
      [⟨0, 0, 28, 28, 1⟩] := rfl
  have hgt : ((⟨0, 0, 28, 28, 1⟩ : Region).confidence > 0.3) := by
    show (1 : ℚ) > 0.3
    norm_num
  simp only [detectJewelryRegions, detectMetallic_29, detectHighContrast_zero,
    detectColor_gold, List.nil_append, hc]
  simp [List.filter_cons, hgt]

/-- **C10.** Every region extraction the validator performs on the
composite image — both the detected-region path with 10% padding and the
center-crop fallback — requests a rectangle fully inside the composite's
bounds: `left ≥ 0`, `top ≥ 0`, `left + width ≤ imageWidth` and
`top + height ≤ imageHeight`.  The detected-region path is stated for any
best region selected from the detector pipeline's output (whose block
geometry makes all region coordinates even integers, which is what makes
the rounded padded rectangle stay inside the image). -/
theorem validator_extraction_in_bounds (sqrtFn : ℚ → ℚ)
    (rgbData labData grayData : RawData) (W H : ℕ)
    (hW : 0 < W) (hH : 0 < H) (regions : List Region)
    (hreg : regions = detectJewelryRegions sqrtFn rgbData labData grayData W H)
    (hne : regions ≠ []) :
    (0 ≤ (extractRect (selectBestJewelryRegion sqrtFn regions
        ((W : ℕ) : ℚ) ((H : ℕ) : ℚ)) W H).1 ∧
     0 ≤ (extractRect (selectBestJewelryRegion sqrtFn regions
        ((W : ℕ) : ℚ) ((H : ℕ) : ℚ)) W H).2.1 ∧
     (extractRect (selectBestJewelryRegion sqrtFn regions
        ((W : ℕ) : ℚ) ((H : ℕ) : ℚ)) W H).1 +
       (extractRect (selectBestJewelryRegion sqrtFn regions
        ((W : ℕ) : ℚ) ((H : ℕ) : ℚ)) W H).2.2.1 ≤ (W : ℤ) ∧
     (extractRect (selectBestJewelryRegion sqrtFn regions
        ((W : ℕ) : ℚ) ((H : ℕ) : ℚ)) W H).2.1 +
       (extractRect (selectBestJewelryRegion sqrtFn regions
        ((W : ℕ) : ℚ) ((H : ℕ) : ℚ)) W H).2.2.2 ≤ (H : ℤ)) ∧
    (0 ≤ (centerCropRect W H).1 ∧ 0 ≤ (centerCropRect W H).2.1 ∧
     (centerCropRect W H).1 + (centerCropRect W H).2.2.1 ≤ (W : ℤ) ∧
     (centerCropRect W H).2.1 + (centerCropRect W H).2.2.2 ≤ (H : ℤ)) := by
  subst hreg
  refine ⟨?_, centerCropRect_bounds W H hW hH⟩
  have hmem := selectBestJewelryRegion_mem sqrtFn
    (detectJewelryRegions sqrtFn rgbData labData grayData W H)
    ((W : ℕ) : ℚ) ((H : ℕ) : ℚ) hne
  have heven : EvenIntRegion (selectBestJewelryRegion sqrtFn
      (detectJewelryRegions sqrtFn rgbData labData grayData W H)
      ((W : ℕ) : ℚ) ((H : ℕ) : ℚ)) :=
    evenIntRegion_detectJewelryRegions sqrtFn rgbData labData grayData
      W H _ hmem
  exact extractRect_bounds _ W H heven

theorem validator_extraction_in_bounds_witness :
    (0 ≤ (extractRect (selectBestJewelryRegion (fun _ => 0)
        (detectJewelryRegions (fun _ => 0) rgbGold labZero grayFlat 29 29)
        ((29 : ℕ) : ℚ) ((29 : ℕ) : ℚ)) 29 29).1 ∧
     0 ≤ (extractRect (selectBestJewelryRegion (fun _ => 0)
        (detectJewelryRegions (fun _ => 0) rgbGold labZero grayFlat 29 29)
        ((29 : ℕ) : ℚ) ((29 : ℕ) : ℚ)) 29 29).2.1 ∧
     (extractRect (selectBestJewelryRegion (fun _ => 0)
        (detectJewelryRegions (fun _ => 0) rgbGold labZero grayFlat 29 29)
        ((29 : ℕ) : ℚ) ((29 : ℕ) : ℚ)) 29 29).1 +
       (extractRect (selectBestJewelryRegion (fun _ => 0)
        (detectJewelryRegions (fun _ => 0) rgbGold labZero grayFlat 29 29)
        ((29 : ℕ) : ℚ) ((29 : ℕ) : ℚ)) 29 29).2.2.1 ≤ ((29 : ℕ) : ℤ) ∧
     (extractRect (selectBestJewelryRegion (fun _ => 0)
        (detectJewelryRegions (fun _ => 0) rgbGold labZero grayFlat 29 29)
        ((29 : ℕ) : ℚ) ((29 : ℕ) : ℚ)) 29 29).2.1 +
       (extractRect (selectBestJewelryRegion (fun _ => 0)
        (detectJewelryRegions (fun _ => 0) rgbGold labZero grayFlat 29 29)
        ((29 : ℕ) : ℚ) ((29 : ℕ) : ℚ)) 29 29).2.2.2 ≤ ((29 : ℕ) : ℤ)) ∧
    (0 ≤ (centerCropRect 29 29).1 ∧ 0 ≤ (centerCropRect 29 29).2.1 ∧
     (centerCropRect 29 29).1 + (centerCropRect 29 29).2.2.1 ≤ ((29 : ℕ) : ℤ) ∧
     (centerCropRect 29 29).2.1 + (centerCropRect 29 29).2.2.2 ≤
       ((29 : ℕ) : ℤ)) :=
  validator_extraction_in_bounds (fun _ => 0) rgbGold labZero grayFlat 29 29
    (by norm_num) (by norm_num)
    (detectJewelryRegions (fun _ => 0) rgbGold labZero grayFlat 29 29) rfl
    (by rw [detect_gold_29]; exact List.cons_ne_nil _ _)
